import Mathlib

/-!
# Verification of the reactive navigation callback (`src/brain/brain.cc`)

The program is one C++ function, `callback(Robot*)`, run once per sensor update.
It reads the pose and the laser hits of the robot and calls `set_vel`,
`set_turn` and, at the goal, `done` on it.

Embedding.
* C++ `double` values are elements of a linearly ordered field `F`; every
  definition is generic in `F`, so it evaluates over `ℚ` and can be read over
  `ℝ`.  Rounding and infinities are outside this model.
* NaN is outside the field: the same source is read a second time on values that
  are NaN or a number (`Dbl`, `callbackD`); the two readings make the same calls
  on inputs without NaN (`callbackD_embed`).
* `atan2` and `sqrt` come from the C library, not from the repository: they are
  the two fields of `MathLib`, a parameter of the code that calls them.
* `pow` is only called with integer exponent expressions (`2` and `-1/2`); it is
  the integer power of the field.  The exponent `-1/2` is C++ `int` division,
  which truncates toward zero: `Int.tdiv (-1) 2`.  The mode chain is written
  once with the function called as `pow(dist, -1/2)` as a parameter (`controlP`);
  `control` is that chain with `pow`.
* `abs` is the absolute value on `double`.
* The calls made on the robot are returned as a list, in program order.  The
  line printed on `cout` at the goal is not part of that list.
* The global variable `done` is passed in and handed back.
-/

namespace Brain

variable {F : Type} [LinearOrderedField F]

/-- Modelled from the spec: the header `robot.hh` is not among the sources; a
ranging hit carries the two fields the callback reads, `range` and `angle`. -/
structure LaserHit (F : Type) where
  range : F
  angle : F

/-- Modelled from the spec: the header `robot.hh` is not among the sources; the
callback reads the pose `pos_x`, `pos_y`, `pos_t` and the container `hits`. -/
structure Robot (F : Type) where
  pos_x : F
  pos_y : F
  pos_t : F
  hits : List (LaserHit F)

/-- Modelled from the spec: the three member functions of `Robot` that the
callback calls (velocity command, turn command, goal-reached notification). -/
inductive Call (F : Type) where
  | set_vel (v : F)
  | set_turn (t : F)
  | done

/-- The two C library functions used by the callback. -/
structure MathLib (F : Type) where
  atan2 : F → F → F
  sqrt : F → F

/-- C `pow` at an integer exponent. -/
def pow (x : F) (n : ℤ) : F := x ^ n

/-- `const double goal_x = 20.0;` -/
def goal_x : F := 20.0

/-- `const double goal_y = 0.0;` -/
def goal_y : F := 0.0

/-- `double hit_range = 1.0;` (initial value) -/
def hit_range₀ : F := 1.0

/-- `double range_threshold = 4.0;` -/
def range_threshold : F := 4.0

/-- `double turn_angle = 30*3.141/180;` -/
def turn_angle : F := 30*3.141/180

/-- `double vel_des = 10.0;` -/
def vel_des : F := 10.0

/-- `double dx = goal_x - robot->pos_x;` -/
def dx (robot : Robot F) : F := goal_x - robot.pos_x

/-- `double dy = goal_y - robot->pos_y;` -/
def dy (robot : Robot F) : F := goal_y - robot.pos_y

/-- `double theta = atan2(dy, dx) - alpha;` with `alpha = robot->pos_t`. -/
def theta (lib : MathLib F) (robot : Robot F) : F :=
  let alpha := robot.pos_t
  lib.atan2 (dy robot) (dx robot) - alpha

/-- `dist = sqrt(pow(dx,2) + pow(dy,2)); dist = std::max(dist, 1.0);` -/
def dist (lib : MathLib F) (robot : Robot F) : F :=
  let dist := lib.sqrt (pow (dx robot) 2 + pow (dy robot) 2)
  max dist 1.0

/-- The goal test `abs(dx) < 0.75 && abs(dy) < 0.75`. -/
def atGoal (robot : Robot F) : Prop := |dx robot| < 0.75 ∧ |dy robot| < 0.75

instance (robot : Robot F) : Decidable (atGoal robot) := by
  unfold atGoal; infer_instance

/-- The local variables written by the loop over the hits. -/
structure Detect (F : Type) where
  hit_range : F
  turn : Bool
  stay_on_course : Bool
  transition : Bool

/-- The locals before the loop: `hit_range = 1.0`, the three flags `false`. -/
def detect₀ : Detect F := ⟨hit_range₀, false, false, false⟩

/-- One iteration of `for (LaserHit hit : robot->hits)`. -/
def scanHit (s : Detect F) (hit : LaserHit F) : Detect F :=
  if hit.range < range_threshold then
    if hit.angle < turn_angle ∧ hit.angle > -turn_angle then
      { s with hit_range := hit.range, turn := true }
    else if hit.angle < turn_angle*1.7 ∧ hit.angle > -turn_angle*1.7 then
      { s with stay_on_course := true }
    else if hit.angle < turn_angle*2.2 ∧ hit.angle > -turn_angle*2.2 then
      { s with transition := true }
    else s
  else s

/-- The whole loop over `robot->hits`, in iteration order. -/
def scanHits (hits : List (LaserHit F)) : Detect F :=
  hits.foldl scanHit detect₀

/-- The locals `vel_cmd`, `turn_cmd`, `state` after the `if (turn) ... else` chain. -/
structure Control (F : Type) where
  vel_cmd : F
  turn_cmd : F
  state : Nat

/-- The `if (turn) ... else if (stay_on_course) ... else if (transition) ... else`
chain, before the saturation of `turn_cmd`, with the library function called as
`pow(dist, -1/2)` taken as the parameter `powf`, so that the value passed to it
can be observed. -/
def controlP (powf : F → ℤ → F) (lib : MathLib F) (robot : Robot F) (s : Detect F) :
    Control F :=
  if s.turn then
    let hit_range := max s.hit_range 1.0
    if robot.pos_y < -0.1 then
      ⟨vel_des*0.8, (1/hit_range)*turn_angle*1, 1⟩
    else
      ⟨vel_des*0.8, (1/hit_range)*turn_angle*(-1), 1⟩
  else if s.stay_on_course then
    ⟨vel_des*0.8, 0, 2⟩
  else if s.transition then
    ⟨vel_des*0.9, -0.5*theta lib robot*powf (dist lib robot) (Int.tdiv (-1) 2), 3⟩
  else
    ⟨vel_des, -theta lib robot*powf (dist lib robot) (Int.tdiv (-1) 2), 0⟩

/-- The mode chain of `callback`: `controlP` with the C function `pow`. -/
def control (lib : MathLib F) (robot : Robot F) (s : Detect F) : Control F :=
  controlP pow lib robot s

/-- `std::min(std::max(turn_cmd, -50*3.14/180), 50*3.14/180)` -/
def saturate (turn_cmd : F) : F :=
  min (max turn_cmd (-50*3.14/180)) (50*3.14/180)

/-- The function `callback`: the value of the global `done` after the call and
the calls made on the robot, in order. -/
def callback (lib : MathLib F) (done : Bool) (robot : Robot F) : Bool × List (Call F) :=
  if atGoal robot then
    (done, [Call.set_vel 0.0, Call.set_turn 0.0, Call.done])
  else
    let c := control lib robot (scanHits robot.hits)
    let turn_cmd := saturate c.turn_cmd
    (done, [Call.set_vel c.vel_cmd, Call.set_turn turn_cmd])

/-- Modelled from the spec: `Robot::do_stuff` is not among the sources; the robot
abstraction calls the callback once per tick with that tick's pose and hits.
The result is the final value of the global `done` and the calls of each tick. -/
def run (lib : MathLib F) : Bool → List (Robot F) → Bool × List (List (Call F))
  | done, [] => (done, [])
  | done, robot :: rest =>
    let r := callback lib done robot
    let rs := run lib r.1 rest
    (rs.1, r.2 :: rs.2)

/-! ## The callback on doubles that may be NaN

A second reading of the same source, for inputs with NaN components.  A value is
either NaN or a number of the field; infinities and rounding stay outside the
model.  An arithmetic operation with a NaN operand is NaN, a comparison with a
NaN operand is false, `std::max(a, b)` is `(a < b) ? b : a`, `std::min(a, b)` is
`(b < a) ? b : a`, and `pow(x, 0)` is `1` for every `x`, NaN included. -/

/-- A C++ `double` that may be NaN. -/
inductive Dbl (F : Type) where
  | nan
  | num (x : F)

/-- A binary arithmetic operation: NaN as soon as one operand is NaN. -/
def Dbl.map₂ (f : F → F → F) : Dbl F → Dbl F → Dbl F
  | Dbl.num x, Dbl.num y => Dbl.num (f x y)
  | Dbl.num _, Dbl.nan => Dbl.nan
  | Dbl.nan, _ => Dbl.nan

/-- A unary operation: NaN on NaN. -/
def Dbl.map (f : F → F) : Dbl F → Dbl F
  | Dbl.num x => Dbl.num (f x)
  | Dbl.nan => Dbl.nan

instance : Add (Dbl F) := ⟨Dbl.map₂ fun x y => x + y⟩

instance : Sub (Dbl F) := ⟨Dbl.map₂ fun x y => x - y⟩

instance : Mul (Dbl F) := ⟨Dbl.map₂ fun x y => x * y⟩

instance : Div (Dbl F) := ⟨Dbl.map₂ fun x y => x / y⟩

instance : Neg (Dbl F) := ⟨Dbl.map fun x => -x⟩

/-- The comparison `a < b` of C++: false as soon as one operand is NaN. -/
def Dbl.lt : Dbl F → Dbl F → Prop
  | Dbl.num x, Dbl.num y => x < y
  | Dbl.num _, Dbl.nan => False
  | Dbl.nan, _ => False

instance : LT (Dbl F) := ⟨Dbl.lt⟩

instance (a b : Dbl F) : Decidable (a < b) :=
  match a, b with
  | Dbl.num x, Dbl.num y => inferInstanceAs (Decidable (x < y))
  | Dbl.num _, Dbl.nan => isFalse fun h => h
  | Dbl.nan, _ => isFalse fun h => h

/-- `std::max(a, b)`, which is `(a < b) ? b : a`. -/
def fmax (a b : Dbl F) : Dbl F := if a < b then b else a

/-- `std::min(a, b)`, which is `(b < a) ? b : a`. -/
def fmin (a b : Dbl F) : Dbl F := if b < a then b else a

/-- `abs` on a double. -/
def absD (a : Dbl F) : Dbl F := Dbl.map (fun x => |x|) a

/-- C `atan2` on doubles: NaN when an argument is NaN. -/
def atan2D (lib : MathLib F) (y x : Dbl F) : Dbl F := Dbl.map₂ lib.atan2 y x

/-- C `sqrt` on doubles: NaN on NaN. -/
def sqrtD (lib : MathLib F) (x : Dbl F) : Dbl F := Dbl.map lib.sqrt x

/-- C `pow` at an integer exponent: `pow(x, 0)` is `1` even when `x` is NaN. -/
def powD (x : Dbl F) (n : ℤ) : Dbl F :=
  if n = 0 then Dbl.num 1 else Dbl.map (fun a => a ^ n) x

/-- Modelled from the spec: `LaserHit` of the absent `robot.hh`, with fields that
may be NaN. -/
structure LaserHitD (F : Type) where
  range : Dbl F
  angle : Dbl F

/-- Modelled from the spec: `Robot` of the absent `robot.hh`, with fields that may
be NaN. -/
structure RobotD (F : Type) where
  pos_x : Dbl F
  pos_y : Dbl F
  pos_t : Dbl F
  hits : List (LaserHitD F)

/-- `double dx = goal_x - robot->pos_x;` -/
def dxD (robot : RobotD F) : Dbl F := Dbl.num goal_x - robot.pos_x

/-- `double dy = goal_y - robot->pos_y;` -/
def dyD (robot : RobotD F) : Dbl F := Dbl.num goal_y - robot.pos_y

/-- `double theta = atan2(dy, dx) - alpha;` with `alpha = robot->pos_t`. -/
def thetaD (lib : MathLib F) (robot : RobotD F) : Dbl F :=
  let alpha := robot.pos_t
  atan2D lib (dyD robot) (dxD robot) - alpha

/-- `dist = sqrt(pow(dx,2) + pow(dy,2)); dist = std::max(dist, 1.0);` -/
def distD (lib : MathLib F) (robot : RobotD F) : Dbl F :=
  let dist := sqrtD lib (powD (dxD robot) 2 + powD (dyD robot) 2)
  fmax dist (Dbl.num 1.0)

/-- The goal test `abs(dx) < 0.75 && abs(dy) < 0.75`. -/
def atGoalD (robot : RobotD F) : Prop :=
  absD (dxD robot) < Dbl.num 0.75 ∧ absD (dyD robot) < Dbl.num 0.75

instance (robot : RobotD F) : Decidable (atGoalD robot) := by
  unfold atGoalD; infer_instance

/-- The local variables written by the loop over the hits. -/
structure DetectD (F : Type) where
  hit_range : Dbl F
  turn : Bool
  stay_on_course : Bool
  transition : Bool

/-- One iteration of `for (LaserHit hit : robot->hits)`. -/
def scanHitD (s : DetectD F) (hit : LaserHitD F) : DetectD F :=
  if hit.range < Dbl.num range_threshold then
    if hit.angle < Dbl.num turn_angle ∧ hit.angle > -Dbl.num turn_angle then
      { s with hit_range := hit.range, turn := true }
    else if hit.angle < Dbl.num turn_angle * Dbl.num 1.7 ∧
        hit.angle > -Dbl.num turn_angle * Dbl.num 1.7 then
      { s with stay_on_course := true }
    else if hit.angle < Dbl.num turn_angle * Dbl.num 2.2 ∧
        hit.angle > -Dbl.num turn_angle * Dbl.num 2.2 then
      { s with transition := true }
    else s
  else s

/-- The whole loop over `robot->hits`, from `hit_range = 1.0` and the three flags
`false`. -/
def scanHitsD (hits : List (LaserHitD F)) : DetectD F :=
  hits.foldl scanHitD ⟨Dbl.num hit_range₀, false, false, false⟩

/-- The locals `vel_cmd`, `turn_cmd`, `state` after the `if (turn) ... else` chain. -/
structure ControlD (F : Type) where
  vel_cmd : Dbl F
  turn_cmd : Dbl F
  state : Nat

/-- The `if (turn) ... else if (stay_on_course) ... else if (transition) ... else`
chain, before the saturation of `turn_cmd`. -/
def controlD (lib : MathLib F) (robot : RobotD F) (s : DetectD F) : ControlD F :=
  if s.turn then
    let hit_range := fmax s.hit_range (Dbl.num 1.0)
    if robot.pos_y < -Dbl.num 0.1 then
      ⟨Dbl.num vel_des * Dbl.num 0.8,
        (Dbl.num 1 / hit_range) * Dbl.num turn_angle * Dbl.num 1, 1⟩
    else
      ⟨Dbl.num vel_des * Dbl.num 0.8,
        (Dbl.num 1 / hit_range) * Dbl.num turn_angle * -Dbl.num 1, 1⟩
  else if s.stay_on_course then
    ⟨Dbl.num vel_des * Dbl.num 0.8, Dbl.num 0, 2⟩
  else if s.transition then
    ⟨Dbl.num vel_des * Dbl.num 0.9,
      -Dbl.num 0.5 * thetaD lib robot * powD (distD lib robot) (Int.tdiv (-1) 2), 3⟩
  else
    ⟨Dbl.num vel_des, -thetaD lib robot * powD (distD lib robot) (Int.tdiv (-1) 2), 0⟩

/-- `std::min(std::max(turn_cmd, -50*3.14/180), 50*3.14/180)` -/
def saturateD (turn_cmd : Dbl F) : Dbl F :=
  fmin (fmax turn_cmd (-Dbl.num 50 * Dbl.num 3.14 / Dbl.num 180))
    (Dbl.num 50 * Dbl.num 3.14 / Dbl.num 180)

/-- The function `callback` on doubles that may be NaN: the value of the global
`done` after the call and the calls made on the robot, in order. -/
def callbackD (lib : MathLib F) (done : Bool) (robot : RobotD F) :
    Bool × List (Call (Dbl F)) :=
  if atGoalD robot then
    (done, [Call.set_vel (Dbl.num 0.0), Call.set_turn (Dbl.num 0.0), Call.done])
  else
    let c := controlD lib robot (scanHitsD robot.hits)
    let turn_cmd := saturateD c.turn_cmd
    (done, [Call.set_vel c.vel_cmd, Call.set_turn turn_cmd])

/-- A hit of the field model read as a hit without NaN. -/
def embedHit (h : LaserHit F) : LaserHitD F := ⟨Dbl.num h.range, Dbl.num h.angle⟩

/-- A robot of the field model read as a robot without NaN. -/
def embedRobot (robot : Robot F) : RobotD F :=
  ⟨Dbl.num robot.pos_x, Dbl.num robot.pos_y, Dbl.num robot.pos_t, robot.hits.map embedHit⟩

/-- The locals of the loop of the field model read as locals without NaN. -/
def embedDetect (s : Detect F) : DetectD F :=
  ⟨Dbl.num s.hit_range, s.turn, s.stay_on_course, s.transition⟩

/-- A call with a number as argument read as a call with a double. -/
def embedCall : Call F → Call (Dbl F)
  | Call.set_vel v => Call.set_vel (Dbl.num v)
  | Call.set_turn t => Call.set_turn (Dbl.num t)
  | Call.done => Call.done

/-! ## Vocabulary of the statements

The three kinds of hit named below are not code: they state, with absolute
values, the conditions that one iteration of the loop tests. -/

/-- A hit inside the range gate and inside the narrow band `|angle| < turn_angle`. -/
def avoidHit (hit : LaserHit F) : Prop :=
  hit.range < 4.0 ∧ |hit.angle| < turn_angle

instance (hit : LaserHit F) : Decidable (avoidHit hit) := by
  unfold avoidHit; infer_instance

/-- A hit inside the range gate with `turn_angle ≤ |angle| < 1.7 * turn_angle`. -/
def holdHit (hit : LaserHit F) : Prop :=
  hit.range < 4.0 ∧ turn_angle ≤ |hit.angle| ∧ |hit.angle| < 1.7 * turn_angle

instance (hit : LaserHit F) : Decidable (holdHit hit) := by
  unfold holdHit; infer_instance

/-- A hit inside the range gate with `1.7 * turn_angle ≤ |angle| < 2.2 * turn_angle`. -/
def transitionHit (hit : LaserHit F) : Prop :=
  hit.range < 4.0 ∧ 1.7 * turn_angle ≤ |hit.angle| ∧ |hit.angle| < 2.2 * turn_angle

instance (hit : LaserHit F) : Decidable (transitionHit hit) := by
  unfold transitionHit; infer_instance

/-! ## Constants and saturation -/

theorem turn_angle_eq : (turn_angle : F) = 3141/6000 := by
  unfold turn_angle; norm_num

theorem turn_angle_pos : (0 : F) < turn_angle := by
  rw [turn_angle_eq]; norm_num

theorem saturate_le (t : F) : saturate t ≤ 50*3.14/180 := by
  unfold saturate; exact min_le_right _ _

theorem le_saturate (t : F) : -50*3.14/180 ≤ saturate t := by
  unfold saturate
  refine le_min (le_max_right _ _) ?_
  norm_num

theorem abs_saturate_le (t : F) : |saturate t| ≤ 50*3.14/180 := by
  rw [abs_le]
  refine ⟨?_, saturate_le t⟩
  have h := le_saturate t
  linarith

theorem saturate_of_mem {t : F} (h₁ : -50*3.14/180 ≤ t) (h₂ : t ≤ 50*3.14/180) :
    saturate t = t := by
  unfold saturate
  rw [max_eq_left h₁, min_eq_left h₂]

theorem saturate_of_gt {t : F} (h : 50*3.14/180 < t) : saturate t = 50*3.14/180 := by
  unfold saturate
  exact min_eq_right (le_trans h.le (le_max_left _ _))

theorem saturate_of_lt {t : F} (h : t < -50*3.14/180) : saturate t = -50*3.14/180 := by
  unfold saturate
  rw [max_eq_right h.le]
  exact min_eq_left (by norm_num)

/-! ## The two branches of `callback` -/

theorem callback_atGoal (lib : MathLib F) (done : Bool) (robot : Robot F)
    (h : atGoal robot) :
    callback lib done robot = (done, [Call.set_vel 0, Call.set_turn 0, Call.done]) := by
  unfold callback
  rw [if_pos h]
  norm_num

theorem callback_not_atGoal (lib : MathLib F) (done : Bool) (robot : Robot F)
    (h : ¬ atGoal robot) :
    callback lib done robot =
      (done, [Call.set_vel (control lib robot (scanHits robot.hits)).vel_cmd,
              Call.set_turn (saturate (control lib robot (scanHits robot.hits)).turn_cmd)]) := by
  unfold callback
  rw [if_neg h]

theorem atGoal_iff (robot : Robot F) :
    atGoal robot ↔ |20 - robot.pos_x| < 0.75 ∧ |0 - robot.pos_y| < 0.75 := by
  unfold atGoal dx dy goal_x goal_y
  norm_num

/-! ## The loop over the hits -/

theorem band_iff (a c : F) : (a < c ∧ a > -c) ↔ |a| < c := by
  rw [abs_lt]; exact and_comm

theorem scanHit_avoid (s : Detect F) (h : LaserHit F) (hq : avoidHit h) :
    scanHit s h = { s with hit_range := h.range, turn := true } := by
  obtain ⟨hr, ha⟩ := hq
  unfold scanHit
  rw [if_pos (by simpa [range_threshold] using hr), if_pos ((band_iff _ _).2 ha)]

theorem scanHit_hold (s : Detect F) (h : LaserHit F) (hq : holdHit h) :
    scanHit s h = { s with stay_on_course := true } := by
  obtain ⟨hr, ha₁, ha₂⟩ := hq
  unfold scanHit
  rw [if_pos (by simpa [range_threshold] using hr),
    if_neg (by rw [band_iff]; exact not_lt.2 ha₁),
    if_pos (by rw [neg_mul, band_iff, mul_comm]; exact ha₂)]

theorem scanHit_transition (s : Detect F) (h : LaserHit F) (hq : transitionHit h) :
    scanHit s h = { s with transition := true } := by
  obtain ⟨hr, ha₁, ha₂⟩ := hq
  have hta : (0 : F) < turn_angle := turn_angle_pos
  unfold scanHit
  rw [if_pos (by simpa [range_threshold] using hr),
    if_neg (by rw [band_iff]; exact not_lt.2 (le_trans (by linarith) ha₁)),
    if_neg (by rw [neg_mul, band_iff, mul_comm]; exact not_lt.2 ha₁),
    if_pos (by rw [neg_mul, band_iff, mul_comm]; exact ha₂)]

theorem scanHit_other (s : Detect F) (h : LaserHit F)
    (h₁ : ¬ avoidHit h) (h₂ : ¬ holdHit h) (h₃ : ¬ transitionHit h) :
    scanHit s h = s := by
  unfold scanHit
  by_cases hr : h.range < range_threshold
  · have hr' : h.range < 4.0 := by simpa [range_threshold] using hr
    have a₁ : ¬ |h.angle| < turn_angle := fun ha => h₁ ⟨hr', ha⟩
    have a₂ : ¬ |h.angle| < 1.7 * turn_angle := fun ha => h₂ ⟨hr', not_lt.1 a₁, ha⟩
    have a₃ : ¬ |h.angle| < 2.2 * turn_angle := fun ha => h₃ ⟨hr', not_lt.1 a₂, ha⟩
    rw [if_pos hr, if_neg (by rw [band_iff]; exact a₁),
      if_neg (by rw [neg_mul, band_iff, mul_comm]; exact a₂),
      if_neg (by rw [neg_mul, band_iff, mul_comm]; exact a₃)]
  · rw [if_neg hr]

/-- The three kinds of hit exclude one another. -/
theorem hit_cases (h : LaserHit F) :
    (avoidHit h ∧ ¬ holdHit h ∧ ¬ transitionHit h) ∨
    (¬ avoidHit h ∧ holdHit h ∧ ¬ transitionHit h) ∨
    (¬ avoidHit h ∧ ¬ holdHit h ∧ transitionHit h) ∨
    (¬ avoidHit h ∧ ¬ holdHit h ∧ ¬ transitionHit h) := by
  have hta : (0 : F) < turn_angle := turn_angle_pos
  unfold avoidHit holdHit transitionHit
  by_cases hr : h.range < 4.0
  · by_cases a₁ : |h.angle| < turn_angle
    · left
      exact ⟨⟨hr, a₁⟩, fun hh => absurd a₁ (not_lt.2 hh.2.1),
        fun hh => absurd a₁ (not_lt.2 (le_trans (by linarith) hh.2.1))⟩
    · by_cases a₂ : |h.angle| < 1.7 * turn_angle
      · right; left
        exact ⟨fun hh => a₁ hh.2, ⟨hr, not_lt.1 a₁, a₂⟩, fun hh => absurd a₂ (not_lt.2 hh.2.1)⟩
      · by_cases a₃ : |h.angle| < 2.2 * turn_angle
        · right; right; left
          exact ⟨fun hh => a₁ hh.2, fun hh => a₂ hh.2.2, ⟨hr, not_lt.1 a₂, a₃⟩⟩
        · right; right; right
          exact ⟨fun hh => a₁ hh.2, fun hh => a₂ hh.2.2, fun hh => a₃ hh.2.2⟩
  · right; right; right
    exact ⟨fun hh => hr hh.1, fun hh => hr hh.1, fun hh => hr hh.1⟩

theorem scanHit_turn (s : Detect F) (h : LaserHit F) :
    (scanHit s h).turn = true ↔ s.turn = true ∨ avoidHit h := by
  rcases hit_cases h with ⟨h₁, h₂, h₃⟩ | ⟨h₁, h₂, h₃⟩ | ⟨h₁, h₂, h₃⟩ | ⟨h₁, h₂, h₃⟩
  · rw [scanHit_avoid s h h₁]; simp [h₁]
  · rw [scanHit_hold s h h₂]; simp [h₁]
  · rw [scanHit_transition s h h₃]; simp [h₁]
  · rw [scanHit_other s h h₁ h₂ h₃]; simp [h₁]

theorem scanHit_stay (s : Detect F) (h : LaserHit F) :
    (scanHit s h).stay_on_course = true ↔ s.stay_on_course = true ∨ holdHit h := by
  rcases hit_cases h with ⟨h₁, h₂, h₃⟩ | ⟨h₁, h₂, h₃⟩ | ⟨h₁, h₂, h₃⟩ | ⟨h₁, h₂, h₃⟩
  · rw [scanHit_avoid s h h₁]; simp [h₂]
  · rw [scanHit_hold s h h₂]; simp [h₂]
  · rw [scanHit_transition s h h₃]; simp [h₂]
  · rw [scanHit_other s h h₁ h₂ h₃]; simp [h₂]

theorem scanHit_trans (s : Detect F) (h : LaserHit F) :
    (scanHit s h).transition = true ↔ s.transition = true ∨ transitionHit h := by
  rcases hit_cases h with ⟨h₁, h₂, h₃⟩ | ⟨h₁, h₂, h₃⟩ | ⟨h₁, h₂, h₃⟩ | ⟨h₁, h₂, h₃⟩
  · rw [scanHit_avoid s h h₁]; simp [h₃]
  · rw [scanHit_hold s h h₂]; simp [h₃]
  · rw [scanHit_transition s h h₃]; simp [h₃]
  · rw [scanHit_other s h h₁ h₂ h₃]; simp [h₃]

theorem scanHit_hit_range (s : Detect F) (h : LaserHit F) (hq : ¬ avoidHit h) :
    (scanHit s h).hit_range = s.hit_range := by
  rcases hit_cases h with ⟨h₁, h₂, h₃⟩ | ⟨h₁, h₂, h₃⟩ | ⟨h₁, h₂, h₃⟩ | ⟨h₁, h₂, h₃⟩
  · exact absurd h₁ hq
  · rw [scanHit_hold s h h₂]
  · rw [scanHit_transition s h h₃]
  · rw [scanHit_other s h h₁ h₂ h₃]

theorem foldl_turn (hits : List (LaserHit F)) (s : Detect F) :
    (hits.foldl scanHit s).turn = true ↔ s.turn = true ∨ ∃ h ∈ hits, avoidHit h := by
  induction hits generalizing s with
  | nil => simp
  | cons a l ih =>
    rw [List.foldl_cons, ih, scanHit_turn]
    simp only [List.mem_cons, exists_eq_or_imp, or_assoc]

theorem foldl_stay (hits : List (LaserHit F)) (s : Detect F) :
    (hits.foldl scanHit s).stay_on_course = true ↔
      s.stay_on_course = true ∨ ∃ h ∈ hits, holdHit h := by
  induction hits generalizing s with
  | nil => simp
  | cons a l ih =>
    rw [List.foldl_cons, ih, scanHit_stay]
    simp only [List.mem_cons, exists_eq_or_imp, or_assoc]

theorem foldl_trans (hits : List (LaserHit F)) (s : Detect F) :
    (hits.foldl scanHit s).transition = true ↔
      s.transition = true ∨ ∃ h ∈ hits, transitionHit h := by
  induction hits generalizing s with
  | nil => simp
  | cons a l ih =>
    rw [List.foldl_cons, ih, scanHit_trans]
    simp only [List.mem_cons, exists_eq_or_imp, or_assoc]

theorem foldl_hit_range_of_none (hits : List (LaserHit F)) (s : Detect F)
    (hn : ∀ h ∈ hits, ¬ avoidHit h) : (hits.foldl scanHit s).hit_range = s.hit_range := by
  induction hits generalizing s with
  | nil => rfl
  | cons a l ih =>
    rw [List.foldl_cons, ih _ (fun h hh => hn h (List.mem_cons_of_mem _ hh)),
      scanHit_hit_range s a (hn a (List.mem_cons_self _ _))]

/-- After the loop `hit_range` is the range of the last hit of the narrow band. -/
theorem foldl_hit_range_last (pre post : List (LaserHit F)) (h : LaserHit F) (s : Detect F)
    (hq : avoidHit h) (hn : ∀ h' ∈ post, ¬ avoidHit h') :
    ((pre ++ h :: post).foldl scanHit s).hit_range = h.range := by
  rw [List.foldl_append, List.foldl_cons, foldl_hit_range_of_none post _ hn,
    scanHit_avoid _ h hq]

/-- A list with a hit of the narrow band has a last one. -/
theorem exists_last_avoidHit (hits : List (LaserHit F)) (hq : ∃ h ∈ hits, avoidHit h) :
    ∃ pre h post, hits = pre ++ h :: post ∧ avoidHit h ∧ ∀ h' ∈ post, ¬ avoidHit h' := by
  induction hits with
  | nil => simp at hq
  | cons a l ih =>
    by_cases hl : ∃ h ∈ l, avoidHit h
    · obtain ⟨pre, h, post, e, hh, hn⟩ := ih hl
      exact ⟨a :: pre, h, post, by rw [e, List.cons_append], hh, hn⟩
    · obtain ⟨h, hm, hh⟩ := hq
      rcases List.mem_cons.1 hm with rfl | hm
      · exact ⟨[], h, l, rfl, hh, fun h' hm' hq' => hl ⟨h', hm', hq'⟩⟩
      · exact absurd ⟨h, hm, hh⟩ hl

/-! ## The mode chain -/

theorem tdiv_exponent : Int.tdiv (-1) 2 = 0 := by decide

theorem control_avoid (lib : MathLib F) (robot : Robot F) (s : Detect F)
    (h₁ : s.turn = true) :
    control lib robot s =
      ⟨0.8 * 10.0,
        if robot.pos_y < -0.1 then turn_angle / max s.hit_range 1.0
        else -(turn_angle / max s.hit_range 1.0), 1⟩ := by
  unfold control controlP
  rw [if_pos h₁]
  by_cases hy : robot.pos_y < -0.1
  · simp only [if_pos hy, vel_des]
    congr 1
    · norm_num
    · ring
  · simp only [if_neg hy, vel_des]
    congr 1
    · norm_num
    · ring

theorem control_hold (lib : MathLib F) (robot : Robot F) (s : Detect F)
    (h₁ : s.turn = false) (h₂ : s.stay_on_course = true) :
    control lib robot s = ⟨0.8 * 10.0, 0, 2⟩ := by
  unfold control controlP
  simp only [h₁, h₂, if_true, vel_des, Bool.false_eq_true, if_false]
  congr 1
  norm_num

theorem control_transition (lib : MathLib F) (robot : Robot F) (s : Detect F)
    (h₁ : s.turn = false) (h₂ : s.stay_on_course = false) (h₃ : s.transition = true) :
    control lib robot s = ⟨0.9 * 10.0, -0.5 * theta lib robot, 3⟩ := by
  unfold control controlP
  rw [tdiv_exponent]
  simp only [h₁, h₂, h₃, if_true, vel_des, Bool.false_eq_true, if_false, pow, zpow_zero,
    mul_one]
  congr 1
  norm_num

theorem control_seek (lib : MathLib F) (robot : Robot F) (s : Detect F)
    (h₁ : s.turn = false) (h₂ : s.stay_on_course = false) (h₃ : s.transition = false) :
    control lib robot s = ⟨10.0, -theta lib robot, 0⟩ := by
  unfold control controlP
  rw [tdiv_exponent]
  simp only [h₁, h₂, h₃, vel_des, Bool.false_eq_true, if_false, pow, zpow_zero, mul_one]

/-- The turn command of the avoid branch lies strictly inside the saturation band. -/
theorem avoid_turn_bounds (r : F) :
    0 < turn_angle / max r 1.0 ∧ turn_angle / max r 1.0 ≤ (turn_angle : F) ∧
      (turn_angle : F) < 50*3.14/180 := by
  have hta : (0 : F) < turn_angle := turn_angle_pos
  have hm : (1 : F) ≤ max r 1.0 := by
    have : (1.0 : F) = 1 := by norm_num
    rw [this]; exact le_max_right _ _
  have hm0 : (0 : F) < max r 1.0 := lt_of_lt_of_le one_pos hm
  refine ⟨div_pos hta hm0, ?_, ?_⟩
  · rw [div_le_iff₀ hm0]
    nlinarith
  · rw [turn_angle_eq]; norm_num

theorem saturate_avoid (r : F) :
    saturate (turn_angle / max r 1.0) = turn_angle / max r 1.0 ∧
    saturate (-(turn_angle / max r 1.0)) = -(turn_angle / max r 1.0) := by
  obtain ⟨h₀, h₁, h₂⟩ := avoid_turn_bounds r
  have hb : (0 : F) < 50*3.14/180 := by norm_num
  constructor
  · exact saturate_of_mem (by linarith) (by linarith)
  · exact saturate_of_mem (by linarith) (by linarith)

/-- The real `atan2` on the positive `x` axis. -/
theorem arg_mk_pos {x : ℝ} (hx : 0 ≤ x) : Complex.arg ⟨x, 0⟩ = 0 :=
  Complex.arg_ofReal_of_nonneg hx

theorem scanHits_nil : scanHits ([] : List (LaserHit F)) = detect₀ := rfl

theorem control_state_three (lib : MathLib F) (robot : Robot F) (s : Detect F) :
    (control lib robot s).state = 3 ↔
      s.turn = false ∧ s.stay_on_course = false ∧ s.transition = true := by
  unfold control controlP
  cases h₁ : s.turn <;> cases h₂ : s.stay_on_course <;> cases h₃ : s.transition <;>
    simp <;> split_ifs <;> simp

/-- The flags after the loop, in terms of the hits of the list. -/
theorem scanHits_flags (hits : List (LaserHit F)) :
    ((scanHits hits).turn = true ↔ ∃ h ∈ hits, avoidHit h) ∧
    ((scanHits hits).stay_on_course = true ↔ ∃ h ∈ hits, holdHit h) ∧
    ((scanHits hits).transition = true ↔ ∃ h ∈ hits, transitionHit h) := by
  unfold scanHits
  refine ⟨?_, ?_, ?_⟩
  · rw [foldl_turn]; simp [detect₀]
  · rw [foldl_stay]; simp [detect₀]
  · rw [foldl_trans]; simp [detect₀]

/-- No hit of the narrow band and none of the middle band: no hit inside the
range gate has `|angle| < 1.7 * turn_angle`. -/
theorem no_avoid_no_hold_iff (hits : List (LaserHit F)) :
    ((¬ ∃ h ∈ hits, avoidHit h) ∧ (¬ ∃ h ∈ hits, holdHit h)) ↔
      ∀ h ∈ hits, h.range < 4.0 → ¬ |h.angle| < 1.7 * turn_angle := by
  have hta : (0 : F) < turn_angle := turn_angle_pos
  constructor
  · rintro ⟨h₁, h₂⟩ h hm hr ha
    by_cases hb : |h.angle| < turn_angle
    · exact h₁ ⟨h, hm, hr, hb⟩
    · exact h₂ ⟨h, hm, hr, not_lt.1 hb, ha⟩
  · intro hall
    refine ⟨?_, ?_⟩
    · rintro ⟨h, hm, hr, ha⟩
      exact hall h hm hr (by linarith)
    · rintro ⟨h, hm, hr, -, ha⟩
      exact hall h hm hr ha

/-! ## Sequences of ticks -/

theorem callback_fst (lib : MathLib F) (done : Bool) (robot : Robot F) :
    (callback lib done robot).1 = done := by
  unfold callback; split_ifs <;> rfl

theorem callback_snd_done (lib : MathLib F) (d₁ d₂ : Bool) (robot : Robot F) :
    (callback lib d₁ robot).2 = (callback lib d₂ robot).2 := by
  unfold callback; split_ifs <;> rfl

theorem run_eq_map (lib : MathLib F) (d d' : Bool) (ticks : List (Robot F)) :
    run lib d ticks = (d, ticks.map fun r => (callback lib d' r).2) := by
  induction ticks generalizing d with
  | nil => rfl
  | cons r rest ih =>
    simp only [run, List.map_cons]
    rw [callback_fst, ih, callback_snd_done lib d d' r]

/-! ## Further facts on the loop and on the mode chain -/

/-- The result of the mode chain, branch by branch. -/
theorem control_cases (lib : MathLib F) (robot : Robot F) (s : Detect F) :
    (s.turn = true ∧ control lib robot s =
      ⟨0.8 * 10.0,
        if robot.pos_y < -0.1 then turn_angle / max s.hit_range 1.0
        else -(turn_angle / max s.hit_range 1.0), 1⟩) ∨
    (s.turn = false ∧ s.stay_on_course = true ∧
      control lib robot s = ⟨0.8 * 10.0, 0, 2⟩) ∨
    (s.turn = false ∧ s.stay_on_course = false ∧ s.transition = true ∧
      control lib robot s = ⟨0.9 * 10.0, -0.5 * theta lib robot, 3⟩) ∨
    (s.turn = false ∧ s.stay_on_course = false ∧ s.transition = false ∧
      control lib robot s = ⟨10.0, -theta lib robot, 0⟩) := by
  cases h₁ : s.turn
  · cases h₂ : s.stay_on_course
    · cases h₃ : s.transition
      · exact Or.inr (Or.inr (Or.inr ⟨rfl, rfl, rfl, control_seek lib robot s h₁ h₂ h₃⟩))
      · exact Or.inr (Or.inr (Or.inl ⟨rfl, rfl, rfl, control_transition lib robot s h₁ h₂ h₃⟩))
    · exact Or.inr (Or.inl ⟨rfl, rfl, control_hold lib robot s h₁ h₂⟩)
  · exact Or.inl ⟨rfl, control_avoid lib robot s h₁⟩

/-- Replacing the hits by a list on which the loop ends in the same locals does
not change the result of the callback. -/
theorem callback_congr_hits (lib : MathLib F) (done : Bool) (robot : Robot F)
    (hs : List (LaserHit F)) (h : scanHits hs = scanHits robot.hits) :
    callback lib done { robot with hits := hs } = callback lib done robot := by
  have hg : atGoal { robot with hits := hs } ↔ atGoal robot := Iff.rfl
  by_cases g : atGoal robot
  · rw [callback_atGoal lib done robot g, callback_atGoal lib done _ (hg.2 g)]
  · rw [callback_not_atGoal lib done robot g,
      callback_not_atGoal lib done _ (fun g' => g (hg.1 g'))]
    show (done, [Call.set_vel (control lib { robot with hits := hs } (scanHits hs)).vel_cmd,
      Call.set_turn (saturate (control lib { robot with hits := hs } (scanHits hs)).turn_cmd)])
        = _
    rw [h]
    rfl

/-- Hits that leave the locals of the loop unchanged can be removed from the list. -/
theorem foldl_filter_skip (p : LaserHit F → Bool) (hits : List (LaserHit F)) (s : Detect F)
    (hskip : ∀ (s : Detect F) (h : LaserHit F), p h = false → scanHit s h = s) :
    (hits.filter p).foldl scanHit s = hits.foldl scanHit s := by
  induction hits generalizing s with
  | nil => rfl
  | cons a l ih =>
    cases hp : p a
    · rw [List.filter_cons_of_neg (by simp [hp]), List.foldl_cons, hskip s a hp, ih]
    · rw [List.filter_cons_of_pos hp, List.foldl_cons, List.foldl_cons, ih]

theorem scanHit_out_of_range (s : Detect F) (h : LaserHit F) (hr : ¬ h.range < 4.0) :
    scanHit s h = s :=
  scanHit_other s h (fun q => hr q.1) (fun q => hr q.1) (fun q => hr q.1)

theorem scanHit_out_of_angle (s : Detect F) (h : LaserHit F)
    (ha : ¬ |h.angle| < 2.2 * turn_angle) : scanHit s h = s := by
  have hta : (0 : F) < turn_angle := turn_angle_pos
  have ha' : 2.2 * turn_angle ≤ |h.angle| := not_lt.1 ha
  refine scanHit_other s h (fun q => ?_) (fun q => ?_) (fun q => ha q.2.2)
  · have := q.2; linarith
  · have := q.2.2; linarith

/-- The real `atan2` on the negative `x` axis. -/
theorem arg_mk_neg {x : ℝ} (hx : x < 0) : Complex.arg ⟨x, 0⟩ = Real.pi :=
  Complex.arg_ofReal_of_neg hx

theorem not_atGoal_iff (robot : Robot F) :
    ¬ atGoal robot ↔ (0.75 ≤ |20 - robot.pos_x| ∨ 0.75 ≤ |0 - robot.pos_y|) := by
  rw [atGoal_iff, not_and_or, not_lt, not_lt]

/-- After the loop `hit_range` is below the range threshold or still `1.0`. -/
theorem foldl_hit_range_lt (hits : List (LaserHit F)) (s : Detect F)
    (hs : s.hit_range < 4.0) : (hits.foldl scanHit s).hit_range < 4.0 := by
  induction hits generalizing s with
  | nil => exact hs
  | cons a l ih =>
    rw [List.foldl_cons]
    refine ih _ ?_
    by_cases hq : avoidHit a
    · rw [scanHit_avoid s a hq]; exact hq.1
    · rw [scanHit_hit_range s a hq]; exact hs

theorem scanHits_hit_range_lt (hits : List (LaserHit F)) :
    (scanHits hits).hit_range < 4.0 := by
  unfold scanHits
  refine foldl_hit_range_lt hits _ ?_
  show (hit_range₀ : F) < 4.0
  unfold hit_range₀; norm_num

/-- The mode chain reads the pose of the robot, not its hits. -/
theorem control_with_hits (lib : MathLib F) (robot : Robot F) (hs : List (LaserHit F))
    (s : Detect F) : control lib { robot with hits := hs } s = control lib robot s := rfl

/-- The three flags after the loop do not depend on the order of the hits. -/
theorem scanHits_flags_perm {hits₁ hits₂ : List (LaserHit F)} (hp : hits₁.Perm hits₂) :
    (scanHits hits₁).turn = (scanHits hits₂).turn ∧
    (scanHits hits₁).stay_on_course = (scanHits hits₂).stay_on_course ∧
    (scanHits hits₁).transition = (scanHits hits₂).transition := by
  obtain ⟨a₁, b₁, c₁⟩ := scanHits_flags hits₁
  obtain ⟨a₂, b₂, c₂⟩ := scanHits_flags hits₂
  have mem : ∀ (P : LaserHit F → Prop), (∃ h ∈ hits₁, P h) ↔ (∃ h ∈ hits₂, P h) :=
    fun P => ⟨fun ⟨h, hm, hP⟩ => ⟨h, hp.mem_iff.1 hm, hP⟩,
      fun ⟨h, hm, hP⟩ => ⟨h, hp.mem_iff.2 hm, hP⟩⟩
  refine ⟨?_, ?_, ?_⟩
  · rw [Bool.eq_iff_iff, a₁, a₂]; exact mem _
  · rw [Bool.eq_iff_iff, b₁, b₂]; exact mem _
  · rw [Bool.eq_iff_iff, c₁, c₂]; exact mem _

/-- The value of `pow(x, -1/2)` is `1`: the exponent is the integer `0`. -/
theorem pow_tdiv_exponent (x : F) : pow x (Int.tdiv (-1) 2) = 1 := by
  rw [tdiv_exponent]; exact zpow_zero x

/-! ## Doubles that may be NaN -/

theorem Dbl.num_add (a b : F) : (Dbl.num a + Dbl.num b : Dbl F) = Dbl.num (a + b) := rfl

theorem Dbl.num_sub (a b : F) : (Dbl.num a - Dbl.num b : Dbl F) = Dbl.num (a - b) := rfl

theorem Dbl.num_mul (a b : F) : (Dbl.num a * Dbl.num b : Dbl F) = Dbl.num (a * b) := rfl

theorem Dbl.num_div (a b : F) : (Dbl.num a / Dbl.num b : Dbl F) = Dbl.num (a / b) := rfl

theorem Dbl.neg_num (a : F) : (-Dbl.num a : Dbl F) = Dbl.num (-a) := rfl

theorem Dbl.num_sub_nan (a : F) : (Dbl.num a - Dbl.nan : Dbl F) = Dbl.nan := rfl

theorem Dbl.nan_sub (b : Dbl F) : (Dbl.nan - b : Dbl F) = Dbl.nan := rfl

theorem Dbl.nan_add (b : Dbl F) : (Dbl.nan + b : Dbl F) = Dbl.nan := rfl

theorem Dbl.nan_mul (b : Dbl F) : (Dbl.nan * b : Dbl F) = Dbl.nan := rfl

theorem Dbl.neg_nan : (-Dbl.nan : Dbl F) = Dbl.nan := rfl

theorem Dbl.num_lt_num (a b : F) : (Dbl.num a < Dbl.num b) ↔ a < b := Iff.rfl

theorem Dbl.not_nan_lt (b : Dbl F) : ¬ (Dbl.nan < b) := fun h => h

theorem Dbl.not_lt_nan (a : Dbl F) : ¬ (a < Dbl.nan) := by
  cases a <;> exact fun h => h

/-- A value below a number is a number. -/
theorem Dbl.eq_num_of_lt {a : Dbl F} {b : F} (h : a < Dbl.num b) :
    ∃ x, a = Dbl.num x ∧ x < b := by
  cases a with
  | nan => exact absurd h (Dbl.not_nan_lt _)
  | num x => exact ⟨x, rfl, h⟩

theorem fmax_num (a b : F) : fmax (Dbl.num a) (Dbl.num b) = Dbl.num (max a b) := by
  unfold fmax
  by_cases h : a < b
  · rw [if_pos ((Dbl.num_lt_num a b).2 h), max_eq_right h.le]
  · rw [if_neg (fun h' => h ((Dbl.num_lt_num a b).1 h')), max_eq_left (not_lt.1 h)]

theorem fmin_num (a b : F) : fmin (Dbl.num a) (Dbl.num b) = Dbl.num (min a b) := by
  unfold fmin
  by_cases h : b < a
  · rw [if_pos ((Dbl.num_lt_num b a).2 h), min_eq_right h.le]
  · rw [if_neg (fun h' => h ((Dbl.num_lt_num b a).1 h')), min_eq_left (not_lt.1 h)]

/-- The call `std::max(NaN, b)` returns NaN. -/
theorem fmax_nan (b : Dbl F) : fmax Dbl.nan b = Dbl.nan := by
  unfold fmax; rw [if_neg (Dbl.not_nan_lt b)]

/-- The call `std::min(NaN, b)` returns NaN. -/
theorem fmin_nan (b : Dbl F) : fmin Dbl.nan b = Dbl.nan := by
  unfold fmin; rw [if_neg (Dbl.not_lt_nan b)]

theorem absD_num (a : F) : absD (Dbl.num a) = Dbl.num |a| := rfl

theorem absD_nan : absD (Dbl.nan : Dbl F) = Dbl.nan := rfl

theorem powD_zero (x : Dbl F) : powD x 0 = Dbl.num 1 := by
  unfold powD; rw [if_pos rfl]

theorem powD_tdiv (x : Dbl F) : powD x (Int.tdiv (-1) 2) = Dbl.num 1 := by
  rw [tdiv_exponent]; exact powD_zero x

theorem powD_two_num (x : F) : powD (Dbl.num x) 2 = Dbl.num (pow x 2) := by
  unfold powD; rw [if_neg (by decide)]; rfl

theorem powD_two_nan : powD (Dbl.nan : Dbl F) 2 = Dbl.nan := by
  unfold powD; rw [if_neg (by decide)]; rfl

theorem saturateD_num (a : F) : saturateD (Dbl.num a) = Dbl.num (saturate a) := by
  unfold saturateD saturate
  simp only [Dbl.neg_num, Dbl.num_mul, Dbl.num_div, fmax_num, fmin_num]

theorem saturateD_nan : saturateD (Dbl.nan : Dbl F) = Dbl.nan := by
  unfold saturateD
  rw [fmax_nan, fmin_nan]

/-! ## The two readings agree on a pose without NaN -/

theorem dxD_num (x y t : F) (hits : List (LaserHitD F)) (hs : List (LaserHit F)) :
    dxD ⟨Dbl.num x, Dbl.num y, Dbl.num t, hits⟩ = Dbl.num (dx ⟨x, y, t, hs⟩) := rfl

theorem dyD_num (x y t : F) (hits : List (LaserHitD F)) (hs : List (LaserHit F)) :
    dyD ⟨Dbl.num x, Dbl.num y, Dbl.num t, hits⟩ = Dbl.num (dy ⟨x, y, t, hs⟩) := rfl

theorem thetaD_num (lib : MathLib F) (x y t : F) (hits : List (LaserHitD F))
    (hs : List (LaserHit F)) :
    thetaD lib ⟨Dbl.num x, Dbl.num y, Dbl.num t, hits⟩ = Dbl.num (theta lib ⟨x, y, t, hs⟩) :=
  rfl

theorem distD_num (lib : MathLib F) (x y t : F) (tD : Dbl F) (hits : List (LaserHitD F))
    (hs : List (LaserHit F)) :
    distD lib ⟨Dbl.num x, Dbl.num y, tD, hits⟩ = Dbl.num (dist lib ⟨x, y, t, hs⟩) := by
  unfold distD dist
  rw [show dxD ⟨Dbl.num x, Dbl.num y, tD, hits⟩ = Dbl.num (dx ⟨x, y, t, hs⟩) from rfl,
    show dyD ⟨Dbl.num x, Dbl.num y, tD, hits⟩ = Dbl.num (dy ⟨x, y, t, hs⟩) from rfl,
    powD_two_num, powD_two_num, Dbl.num_add]
  show fmax (Dbl.num _) (Dbl.num 1.0) = _
  rw [fmax_num]

theorem atGoalD_num (x y t : F) (hits : List (LaserHitD F)) (hs : List (LaserHit F)) :
    atGoalD ⟨Dbl.num x, Dbl.num y, Dbl.num t, hits⟩ ↔ atGoal ⟨x, y, t, hs⟩ := Iff.rfl

/-- After the loop `hit_range` is a number, whatever the hits. -/
theorem foldl_scanHitD_num (hits : List (LaserHitD F)) (s : DetectD F)
    (hs : ∃ r, s.hit_range = Dbl.num r) :
    ∃ r, (hits.foldl scanHitD s).hit_range = Dbl.num r := by
  induction hits generalizing s with
  | nil => exact hs
  | cons a l ih =>
    rw [List.foldl_cons]
    refine ih _ ?_
    unfold scanHitD
    split_ifs with h₁ h₂ h₃ h₄
    · obtain ⟨x, hx, -⟩ := Dbl.eq_num_of_lt h₁
      exact ⟨x, hx⟩
    · exact hs
    · exact hs
    · exact hs
    · exact hs

theorem scanHitsD_num (hits : List (LaserHitD F)) :
    ∃ r, (scanHitsD hits).hit_range = Dbl.num r :=
  foldl_scanHitD_num hits _ ⟨hit_range₀, rfl⟩

/-- On a pose without NaN and with `hit_range` a number, the mode chain on
doubles computes the numbers of the mode chain on the field. -/
theorem controlD_num (lib : MathLib F) (x y t r : F) (a b c : Bool)
    (hits : List (LaserHitD F)) (hs : List (LaserHit F)) :
    controlD lib ⟨Dbl.num x, Dbl.num y, Dbl.num t, hits⟩ ⟨Dbl.num r, a, b, c⟩ =
      ⟨Dbl.num (control lib ⟨x, y, t, hs⟩ ⟨r, a, b, c⟩).vel_cmd,
       Dbl.num (control lib ⟨x, y, t, hs⟩ ⟨r, a, b, c⟩).turn_cmd,
       (control lib ⟨x, y, t, hs⟩ ⟨r, a, b, c⟩).state⟩ := by
  unfold controlD control controlP
  simp only [thetaD_num lib x y t hits hs, powD_tdiv, fmax_num, Dbl.neg_num, Dbl.num_mul,
    Dbl.num_div, Dbl.num_lt_num, pow_tdiv_exponent]
  split_ifs <;> rfl

theorem scanHitD_embed (s : Detect F) (h : LaserHit F) :
    scanHitD (embedDetect s) (embedHit h) = embedDetect (scanHit s h) := by
  unfold scanHitD scanHit embedHit
  simp only [Dbl.neg_num, Dbl.num_mul, Dbl.num_lt_num, gt_iff_lt]
  split_ifs <;> rfl

theorem scanHitsD_embed (hits : List (LaserHit F)) :
    scanHitsD (hits.map embedHit) = embedDetect (scanHits hits) := by
  have gen : ∀ (l : List (LaserHit F)) (s : Detect F),
      (l.map embedHit).foldl scanHitD (embedDetect s) = embedDetect (l.foldl scanHit s) := by
    intro l
    induction l with
    | nil => intro s; rfl
    | cons a l ih =>
      intro s
      rw [List.map_cons, List.foldl_cons, List.foldl_cons, scanHitD_embed, ih]
  exact gen hits detect₀

/-- On a robot without NaN the callback on doubles makes the calls of the
callback on the field. -/
theorem callbackD_embed (lib : MathLib F) (done : Bool) (robot : Robot F) :
    callbackD lib done (embedRobot robot) =
      (done, (callback lib done robot).2.map embedCall) := by
  have hg : atGoalD (embedRobot robot) ↔ atGoal robot := Iff.rfl
  unfold callbackD
  by_cases g : atGoal robot
  · rw [if_pos (hg.2 g), callback_atGoal lib done robot g]
    simp only [List.map_cons, List.map_nil, embedCall]
    norm_num
  · rw [if_neg (fun g' => g (hg.1 g')), callback_not_atGoal lib done robot g]
    show (done, [Call.set_vel (controlD lib (embedRobot robot)
        (scanHitsD (robot.hits.map embedHit))).vel_cmd,
      Call.set_turn (saturateD (controlD lib (embedRobot robot)
        (scanHitsD (robot.hits.map embedHit))).turn_cmd)]) = _
    rw [scanHitsD_embed]
    have hc := controlD_num lib robot.pos_x robot.pos_y robot.pos_t
      (scanHits robot.hits).hit_range (scanHits robot.hits).turn
      (scanHits robot.hits).stay_on_course (scanHits robot.hits).transition
      (robot.hits.map embedHit) robot.hits
    have hc' : controlD lib (embedRobot robot) (embedDetect (scanHits robot.hits)) =
        ⟨Dbl.num (control lib robot (scanHits robot.hits)).vel_cmd,
         Dbl.num (control lib robot (scanHits robot.hits)).turn_cmd,
         (control lib robot (scanHits robot.hits)).state⟩ := hc
    rw [hc', saturateD_num]
    rfl

theorem callbackD_atGoalD (lib : MathLib F) (done : Bool) (robot : RobotD F)
    (h : atGoalD robot) :
    callbackD lib done robot =
      (done, [Call.set_vel (Dbl.num 0), Call.set_turn (Dbl.num 0), Call.done]) := by
  unfold callbackD
  rw [if_pos h]
  norm_num

theorem callbackD_not_atGoalD (lib : MathLib F) (done : Bool) (robot : RobotD F)
    (h : ¬ atGoalD robot) :
    callbackD lib done robot =
      (done, [Call.set_vel (controlD lib robot (scanHitsD robot.hits)).vel_cmd,
              Call.set_turn (saturateD (controlD lib robot (scanHitsD robot.hits)).turn_cmd)]) := by
  unfold callbackD
  rw [if_neg h]

/-- With no flag set the mode chain on doubles is the seek branch, and
`pow(dist, -1/2)` is `1`. -/
theorem controlD_seek (lib : MathLib F) (robot : RobotD F) (r : Dbl F) :
    controlD lib robot ⟨r, false, false, false⟩ =
      ⟨Dbl.num 10.0, -thetaD lib robot * Dbl.num 1, 0⟩ := by
  unfold controlD
  rw [powD_tdiv]
  simp only [Bool.false_eq_true, if_false, vel_des]

/-! ## Claims -/

/-- C1. Goal detection: for every pose with `|goal.x - pose.x| < 0.75` and
`|goal.y - pose.y| < 0.75` (goal `(20, 0)`) and every list of hits, the callback
calls `set_vel(0)`, `set_turn(0)` and `done()` and nothing else; replacing the
hits by any other list leaves the calls unchanged. -/
theorem C1_goal_detection (lib : MathLib F) (done : Bool) (robot : Robot F)
    (hx : |20 - robot.pos_x| < 0.75) (hy : |0 - robot.pos_y| < 0.75) :
    (callback lib done robot).2 = [Call.set_vel 0, Call.set_turn 0, Call.done] ∧
    ∀ hits : List (LaserHit F),
      (callback lib done { robot with hits := hits }).2 = (callback lib done robot).2 := by
  have h : atGoal robot := (atGoal_iff robot).2 ⟨hx, hy⟩
  refine ⟨by rw [callback_atGoal lib done robot h], fun hits => ?_⟩
  have h' : atGoal { robot with hits := hits } := (atGoal_iff _).2 ⟨hx, hy⟩
  rw [callback_atGoal lib done robot h, callback_atGoal lib done _ h']

/-- Witness of C1: the pose `(19.5, 0.5, 0)` with one hit in front of the robot. -/
theorem C1_goal_detection_witness :
    (callback (⟨fun _ _ => 0, Rat.sqrt⟩ : MathLib ℚ) false ⟨19.5, 0.5, 0, [⟨2, 0⟩]⟩).2
      = [Call.set_vel 0, Call.set_turn 0, Call.done] :=
  (C1_goal_detection (⟨fun _ _ => 0, Rat.sqrt⟩ : MathLib ℚ) false ⟨19.5, 0.5, 0, [⟨2, 0⟩]⟩
    (by norm_num [abs_lt]) (by norm_num [abs_lt])).1

/-- C2, as stated, fails on a pose with a NaN component: with no hits, a pose
with a NaN heading, with a NaN `pos_x` or with a NaN `pos_y` is outside the goal
box, and the callback emits `set_vel(10.0)` and `set_turn(NaN)`, since
`std::min(std::max(NaN, lo), hi)` is NaN; NaN satisfies no bound. -/
theorem C2_counterexample :
    (callbackD (⟨fun y x => Complex.arg ⟨x, y⟩, Real.sqrt⟩ : MathLib ℝ) false
        ⟨Dbl.num 0, Dbl.num 0, Dbl.nan, []⟩).2 =
      [Call.set_vel (Dbl.num 10.0), Call.set_turn Dbl.nan] ∧
    (callbackD (⟨fun y x => Complex.arg ⟨x, y⟩, Real.sqrt⟩ : MathLib ℝ) false
        ⟨Dbl.nan, Dbl.num 0, Dbl.num 0, []⟩).2 =
      [Call.set_vel (Dbl.num 10.0), Call.set_turn Dbl.nan] ∧
    (callbackD (⟨fun y x => Complex.arg ⟨x, y⟩, Real.sqrt⟩ : MathLib ℝ) false
        ⟨Dbl.num 0, Dbl.nan, Dbl.num 0, []⟩).2 =
      [Call.set_vel (Dbl.num 10.0), Call.set_turn Dbl.nan] := by
  have g₁ : ¬ atGoalD (⟨Dbl.num 0, Dbl.num 0, Dbl.nan, []⟩ : RobotD ℝ) := by
    intro h
    have h' : |(goal_x : ℝ) - 0| < 0.75 := h.1
    unfold goal_x at h'
    norm_num [abs_lt] at h'
  have g₂ : ¬ atGoalD (⟨Dbl.nan, Dbl.num 0, Dbl.num 0, []⟩ : RobotD ℝ) :=
    fun h => Dbl.not_nan_lt _ h.1
  have g₃ : ¬ atGoalD (⟨Dbl.num 0, Dbl.nan, Dbl.num 0, []⟩ : RobotD ℝ) :=
    fun h => Dbl.not_nan_lt _ h.2
  refine ⟨?_, ?_, ?_⟩
  · rw [callbackD_not_atGoalD _ _ _ g₁]
    show [Call.set_vel (controlD _ _ ⟨Dbl.num hit_range₀, false, false, false⟩).vel_cmd,
      Call.set_turn (saturateD
        (controlD _ _ ⟨Dbl.num hit_range₀, false, false, false⟩).turn_cmd)] = _
    rw [controlD_seek]
    rfl
  · rw [callbackD_not_atGoalD _ _ _ g₂]
    show [Call.set_vel (controlD _ _ ⟨Dbl.num hit_range₀, false, false, false⟩).vel_cmd,
      Call.set_turn (saturateD
        (controlD _ _ ⟨Dbl.num hit_range₀, false, false, false⟩).turn_cmd)] = _
    rw [controlD_seek]
    rfl
  · rw [callbackD_not_atGoalD _ _ _ g₃]
    show [Call.set_vel (controlD _ _ ⟨Dbl.num hit_range₀, false, false, false⟩).vel_cmd,
      Call.set_turn (saturateD
        (controlD _ _ ⟨Dbl.num hit_range₀, false, false, false⟩).turn_cmd)] = _
    rw [controlD_seek]
    rfl

/-- C2 (amended). Saturation invariant: for every pose whose `pos_x`, `pos_y` and
heading are numbers (not NaN) and every list of hits, hits with NaN fields
included, the callback makes exactly one `set_turn` call, in every mode and at
the goal, and its argument is a number `t` with `|t| ≤ 50·π/180`. -/
theorem C2_saturation_invariant (lib : MathLib ℝ) (done : Bool) (x y t : ℝ)
    (hits : List (LaserHitD ℝ)) :
    ∃ v t',
      ((callbackD lib done ⟨Dbl.num x, Dbl.num y, Dbl.num t, hits⟩).2 =
          [Call.set_vel (Dbl.num v), Call.set_turn (Dbl.num t')] ∨
       (callbackD lib done ⟨Dbl.num x, Dbl.num y, Dbl.num t, hits⟩).2 =
          [Call.set_vel (Dbl.num v), Call.set_turn (Dbl.num t'), Call.done]) ∧
      |t'| ≤ 50 * Real.pi / 180 := by
  by_cases h : atGoal (⟨x, y, t, []⟩ : Robot ℝ)
  · refine ⟨0, 0, Or.inr ?_, ?_⟩
    · rw [callbackD_atGoalD lib done _ ((atGoalD_num x y t hits []).2 h)]
    · rw [abs_zero]
      have := Real.pi_pos
      positivity
  · have h' : ¬ atGoalD (⟨Dbl.num x, Dbl.num y, Dbl.num t, hits⟩ : RobotD ℝ) :=
      fun g => h ((atGoalD_num x y t hits []).1 g)
    obtain ⟨r, hr⟩ := scanHitsD_num hits
    rcases hsd : scanHitsD hits with ⟨rD, a, b, c⟩
    rw [hsd] at hr
    have hr' : rD = Dbl.num r := hr
    subst hr'
    refine ⟨(control lib ⟨x, y, t, []⟩ ⟨r, a, b, c⟩).vel_cmd,
      saturate (control lib ⟨x, y, t, []⟩ ⟨r, a, b, c⟩).turn_cmd, Or.inl ?_, ?_⟩
    · rw [callbackD_not_atGoalD lib done _ h']
      show [Call.set_vel (controlD lib _ (scanHitsD hits)).vel_cmd,
        Call.set_turn (saturateD (controlD lib _ (scanHitsD hits)).turn_cmd)] = _
      rw [hsd, controlD_num lib x y t r a b c hits [], saturateD_num]
    · refine le_trans (abs_saturate_le _) ?_
      have := Real.pi_gt_d2
      linarith

/-- C3, as stated, fails: the pose `(0, 0)` with heading `1` and no hits is
outside the goal box, its raw turn command is `1 > 50·π/180`, and the callback
emits `50·3.14/180`, which is not `50·π/180`. -/
theorem C3_counterexample :
    ¬ atGoal (⟨0, 0, 1, []⟩ : Robot ℝ) ∧
    50 * Real.pi / 180 <
      (control (⟨fun y x => Complex.arg ⟨x, y⟩, Real.sqrt⟩ : MathLib ℝ) ⟨0, 0, 1, []⟩
        (scanHits [])).turn_cmd ∧
    (callback (⟨fun y x => Complex.arg ⟨x, y⟩, Real.sqrt⟩ : MathLib ℝ) false
        ⟨0, 0, 1, []⟩).2 = [Call.set_vel 10, Call.set_turn (50 * 3.14 / 180)] ∧
    (50 * 3.14 / 180 : ℝ) ≠ 50 * Real.pi / 180 := by
  have hg : ¬ atGoal (⟨0, 0, 1, []⟩ : Robot ℝ) := by
    rw [atGoal_iff]; norm_num [abs_lt]
  have hraw : (control (⟨fun y x => Complex.arg ⟨x, y⟩, Real.sqrt⟩ : MathLib ℝ)
      ⟨0, 0, 1, []⟩ (scanHits [])) = ⟨10, 1, 0⟩ := by
    rw [scanHits_nil, control_seek _ _ _ rfl rfl rfl]
    simp only [theta, dx, dy, goal_x, goal_y]
    norm_num [arg_mk_pos]
  have hpi := Real.pi_gt_d2
  have hpi' := Real.pi_lt_d2
  refine ⟨hg, ?_, ?_, ?_⟩
  · rw [hraw]; show 50 * Real.pi / 180 < 1; linarith
  · rw [callback_not_atGoal _ _ _ hg, hraw]
    show [Call.set_vel (10 : ℝ), Call.set_turn (saturate 1)] = _
    rw [saturate_of_gt (by norm_num)]
  · intro h; linarith

/-- C3 (amended). Saturation is exact at the boundary `50·3.14/180` of the code:
for every input outside the goal box the callback emits `set_turn t`, where `t`
is `50·3.14/180` when the raw turn command is greater than that, `-50·3.14/180`
when the raw turn command is less than that, and the raw turn command itself
when it lies inside the band. -/
theorem C3_saturation_exact (lib : MathLib F) (done : Bool) (robot : Robot F)
    (hg : ¬ atGoal robot) :
    ∃ t, (callback lib done robot).2 =
        [Call.set_vel (control lib robot (scanHits robot.hits)).vel_cmd, Call.set_turn t] ∧
      (50*3.14/180 < (control lib robot (scanHits robot.hits)).turn_cmd →
        t = 50*3.14/180) ∧
      ((control lib robot (scanHits robot.hits)).turn_cmd < -50*3.14/180 →
        t = -50*3.14/180) ∧
      (-50*3.14/180 ≤ (control lib robot (scanHits robot.hits)).turn_cmd ∧
        (control lib robot (scanHits robot.hits)).turn_cmd ≤ 50*3.14/180 →
        t = (control lib robot (scanHits robot.hits)).turn_cmd) := by
  refine ⟨_, by rw [callback_not_atGoal lib done robot hg], ?_, ?_, ?_⟩
  · exact saturate_of_gt
  · exact saturate_of_lt
  · exact fun h => saturate_of_mem h.1 h.2

/-- Witness of C3 (amended): the pose `(0, 0)` with heading `1` and no hits. -/
theorem C3_saturation_exact_witness :
    ¬ atGoal (⟨0, 0, 1, []⟩ : Robot ℝ) ∧
    ∃ t, (callback (⟨fun y x => Complex.arg ⟨x, y⟩, Real.sqrt⟩ : MathLib ℝ) false
        ⟨0, 0, 1, []⟩).2 =
        [Call.set_vel (control (⟨fun y x => Complex.arg ⟨x, y⟩, Real.sqrt⟩ : MathLib ℝ)
          ⟨0, 0, 1, []⟩ (scanHits [])).vel_cmd, Call.set_turn t] ∧
      (50*3.14/180 < (control (⟨fun y x => Complex.arg ⟨x, y⟩, Real.sqrt⟩ : MathLib ℝ)
          ⟨0, 0, 1, []⟩ (scanHits [])).turn_cmd → t = 50*3.14/180) :=
  have hg : ¬ atGoal (⟨0, 0, 1, []⟩ : Robot ℝ) := by
    rw [atGoal_iff]; norm_num [abs_lt]
  ⟨hg, (C3_saturation_exact _ false ⟨0, 0, 1, []⟩ hg).imp fun _ h => ⟨h.1, h.2.1⟩⟩

/-- C4. Mode priority: for every pose outside the goal box and every hit list
with at least one hit of range `< 4.0` and `|angle| < turn_angle`, the avoid
branch is taken (`state = 1`) and the callback emits velocity `0.8 * 10.0` and
turn `+turn_angle / max(r, 1.0)` if `pos_y < -0.1`, `-turn_angle / max(r, 1.0)`
otherwise, where `r` is the range of such a hit of the list; the other hits and
their positions in the list do not matter. -/
theorem C4_mode_priority (lib : MathLib F) (done : Bool) (robot : Robot F)
    (hg : ¬ atGoal robot)
    (hq : ∃ h ∈ robot.hits, h.range < 4.0 ∧ |h.angle| < turn_angle) :
    (control lib robot (scanHits robot.hits)).state = 1 ∧
    ∃ h ∈ robot.hits, (h.range < 4.0 ∧ |h.angle| < turn_angle) ∧
      (callback lib done robot).2 =
        [Call.set_vel (0.8 * 10.0),
         Call.set_turn (if robot.pos_y < -0.1 then turn_angle / max h.range 1.0
                        else -(turn_angle / max h.range 1.0))] := by
  have ht : (scanHits robot.hits).turn = true := (foldl_turn _ _).2 (Or.inr hq)
  obtain ⟨pre, h, post, e, hh, hn⟩ := exists_last_avoidHit robot.hits hq
  have hr : (scanHits robot.hits).hit_range = h.range := by
    unfold scanHits; rw [e]; exact foldl_hit_range_last pre post h _ hh hn
  have hc := control_avoid lib robot _ ht
  refine ⟨by rw [hc], h, by rw [e]; simp, hh, ?_⟩
  rw [callback_not_atGoal lib done robot hg, hc, hr]
  by_cases hy : robot.pos_y < -0.1
  · simp only [if_pos hy, (saturate_avoid h.range).1]
  · simp only [if_neg hy, (saturate_avoid h.range).2]

/-- Witness of C4: pose `(0, 0, 0)` with the hits `(5°, 2.0)` and `(50°, 3.0)`;
the command is the avoid command computed from the hit at `5°`. -/
theorem C4_mode_priority_witness :
    (callback (⟨fun y x => Complex.arg ⟨x, y⟩, Real.sqrt⟩ : MathLib ℝ) false
        ⟨0, 0, 0, [⟨2.0, 5 * Real.pi / 180⟩, ⟨3.0, 50 * Real.pi / 180⟩]⟩).2 =
      [Call.set_vel (0.8 * 10.0), Call.set_turn (-(turn_angle / 2))] := by
  have hpi := Real.pi_gt_d2
  have hpi' := Real.pi_lt_d2
  have hta : (turn_angle : ℝ) = 3141/6000 := turn_angle_eq
  obtain ⟨-, h, hm, hq, e⟩ := C4_mode_priority
    (⟨fun y x => Complex.arg ⟨x, y⟩, Real.sqrt⟩ : MathLib ℝ) false
    ⟨0, 0, 0, [⟨2.0, 5 * Real.pi / 180⟩, ⟨3.0, 50 * Real.pi / 180⟩]⟩
    (by rw [atGoal_iff]; norm_num [abs_lt])
    ⟨⟨2.0, 5 * Real.pi / 180⟩, by simp, by norm_num, by
      rw [hta, abs_lt]; constructor <;> norm_num <;> linarith⟩
  rw [e]
  simp only [List.mem_cons, List.mem_singleton, List.not_mem_nil, or_false] at hm
  rcases hm with rfl | rfl
  · norm_num
  · exfalso
    have h2 := hq.2
    rw [hta, abs_lt] at h2
    norm_num at h2
    linarith [h2.2]

/-- C5. Avoid turn-sign symmetry: for every hit list with a hit of range `< 4.0`
and `|angle| < turn_angle` and every two poses outside the goal box, the first
with `pos_y < -0.1` and the second with `pos_y ≥ -0.1`, the two emitted
velocities are equal and the two emitted turn commands are `t` and `-t` with
`t > 0 > -t`. -/
theorem C5_avoid_symmetry (lib : MathLib F) (d₁ d₂ : Bool) (r₁ r₂ : Robot F)
    (hh : r₁.hits = r₂.hits)
    (hq : ∃ h ∈ r₁.hits, h.range < 4.0 ∧ |h.angle| < turn_angle)
    (g₁ : ¬ atGoal r₁) (g₂ : ¬ atGoal r₂)
    (y₁ : r₁.pos_y < -0.1) (y₂ : -0.1 ≤ r₂.pos_y) :
    ∃ v t, (callback lib d₁ r₁).2 = [Call.set_vel v, Call.set_turn t] ∧
      (callback lib d₂ r₂).2 = [Call.set_vel v, Call.set_turn (-t)] ∧
      -t < 0 ∧ 0 < t := by
  have ht : (scanHits r₁.hits).turn = true := (foldl_turn _ _).2 (Or.inr hq)
  have c₁ := control_avoid lib r₁ _ ht
  have c₂ := control_avoid lib r₂ _ ht
  rw [if_pos y₁] at c₁
  rw [if_neg (not_lt.2 y₂)] at c₂
  have hpos := (avoid_turn_bounds (scanHits r₁.hits).hit_range).1
  refine ⟨0.8 * 10.0, turn_angle / max (scanHits r₁.hits).hit_range 1.0, ?_, ?_,
    neg_lt_zero.2 hpos, hpos⟩
  · rw [callback_not_atGoal lib d₁ r₁ g₁, c₁]
    simp only [(saturate_avoid _).1]
  · rw [callback_not_atGoal lib d₂ r₂ g₂, ← hh, c₂]
    simp only [(saturate_avoid _).2]

/-- Witness of C5: the poses `(0, -1, 0)` and `(0, 1, 0)` with one hit straight
ahead at range `2`. -/
theorem C5_avoid_symmetry_witness :
    ∃ v t, (callback (⟨fun _ _ => 0, Rat.sqrt⟩ : MathLib ℚ) false ⟨0, -1, 0, [⟨2, 0⟩]⟩).2
        = [Call.set_vel v, Call.set_turn t] ∧
      (callback (⟨fun _ _ => 0, Rat.sqrt⟩ : MathLib ℚ) false ⟨0, 1, 0, [⟨2, 0⟩]⟩).2
        = [Call.set_vel v, Call.set_turn (-t)] ∧
      -t < 0 ∧ 0 < t :=
  C5_avoid_symmetry (⟨fun _ _ => 0, Rat.sqrt⟩ : MathLib ℚ) false false
    ⟨0, -1, 0, [⟨2, 0⟩]⟩ ⟨0, 1, 0, [⟨2, 0⟩]⟩ rfl
    ⟨⟨2, 0⟩, by simp, by norm_num, by rw [turn_angle_eq]; norm_num⟩
    (by rw [atGoal_iff]; norm_num [abs_lt]) (by rw [atGoal_iff]; norm_num [abs_lt])
    (by norm_num) (by norm_num)

/-- C6 at the pose `(0, 0)` with heading `1/2` and no hits, outside the goal box:
the bearing error is `-1/2` and the distance is `20`; the callback emits
velocity `10` and turn `1/2`, which is the clamp of `-bearingError`, whereas the
clamp of `-bearingError * distance^(-0.5)` is a different number. -/
theorem C6_seek_gain_divergence :
    ¬ atGoal (⟨0, 0, 1/2, []⟩ : Robot ℝ) ∧
    theta (⟨fun y x => Complex.arg ⟨x, y⟩, Real.sqrt⟩ : MathLib ℝ) ⟨0, 0, 1/2, []⟩
      = -(1/2) ∧
    dist (⟨fun y x => Complex.arg ⟨x, y⟩, Real.sqrt⟩ : MathLib ℝ) ⟨0, 0, 1/2, []⟩ = 20 ∧
    (callback (⟨fun y x => Complex.arg ⟨x, y⟩, Real.sqrt⟩ : MathLib ℝ) false
        ⟨0, 0, 1/2, []⟩).2 = [Call.set_vel 10, Call.set_turn (1/2)] ∧
    saturate (-(-(1/2) : ℝ) * (20 : ℝ) ^ (-(1/2) : ℝ)) ≠ 1/2 := by
  have hg : ¬ atGoal (⟨0, 0, 1/2, []⟩ : Robot ℝ) := by
    rw [atGoal_iff]; norm_num [abs_lt]
  have hth : theta (⟨fun y x => Complex.arg ⟨x, y⟩, Real.sqrt⟩ : MathLib ℝ)
      ⟨0, 0, 1/2, []⟩ = -(1/2) := by
    simp only [theta, dx, dy, goal_x, goal_y]
    norm_num [arg_mk_pos]
  have hd : dist (⟨fun y x => Complex.arg ⟨x, y⟩, Real.sqrt⟩ : MathLib ℝ)
      ⟨0, 0, 1/2, []⟩ = 20 := by
    simp only [dist, dx, dy, goal_x, goal_y, pow]
    have h400 : Real.sqrt ((20.0 - 0) ^ (2 : ℤ) + (0.0 - 0) ^ (2 : ℤ)) = 20 := by
      rw [show ((20.0 - 0 : ℝ)) ^ (2 : ℤ) + (0.0 - 0) ^ (2 : ℤ) = 20 ^ 2 by norm_num]
      exact Real.sqrt_sq (by norm_num)
    rw [h400]; norm_num
  refine ⟨hg, hth, hd, ?_, ?_⟩
  · rw [callback_not_atGoal _ _ _ hg]
    show [Call.set_vel _, Call.set_turn _] = _
    rw [scanHits_nil, control_seek _ _ _ rfl rfl rfl, hth]
    show [Call.set_vel (10.0 : ℝ), Call.set_turn (saturate (-(-(1/2))))] = _
    rw [saturate_of_mem (by norm_num) (by norm_num)]
    norm_num
  · have hlt : (20 : ℝ) ^ (-(1/2) : ℝ) < 1 :=
      Real.rpow_lt_one_of_one_lt_of_neg (by norm_num) (by norm_num)
    have hpos : (0 : ℝ) < (20 : ℝ) ^ (-(1/2) : ℝ) := Real.rpow_pos_of_pos (by norm_num) _
    rw [saturate_of_mem (by norm_num; nlinarith) (by norm_num; nlinarith)]
    intro h
    nlinarith

/-- C7. No-obstacle baseline: with no hits and the pose `(0, 0, 0)` the seek
branch is taken (`state = 0`) and the callback emits velocity `10.0` and turn
`0`; and for every pose outside the goal box whose bearing error
`atan2(dy, dx) - heading` is `0`, with no hits, it emits velocity `10.0` and
turn `0` from the seek branch. -/
theorem C7_no_obstacle_baseline :
    ((callback (⟨fun y x => Complex.arg ⟨x, y⟩, Real.sqrt⟩ : MathLib ℝ) false
        ⟨0, 0, 0, []⟩).2 = [Call.set_vel 10.0, Call.set_turn 0] ∧
      (control (⟨fun y x => Complex.arg ⟨x, y⟩, Real.sqrt⟩ : MathLib ℝ) ⟨0, 0, 0, []⟩
        (scanHits [])).state = 0) ∧
    ∀ (K : Type) [LinearOrderedField K] (lib : MathLib K) (done : Bool) (robot : Robot K),
      ¬ atGoal robot → lib.atan2 (dy robot) (dx robot) - robot.pos_t = 0 →
      robot.hits = [] →
        (callback lib done robot).2 = [Call.set_vel 10.0, Call.set_turn 0] ∧
        (control lib robot (scanHits robot.hits)).state = 0 := by
  have gen : ∀ (K : Type) [LinearOrderedField K] (lib : MathLib K) (done : Bool)
      (robot : Robot K), ¬ atGoal robot →
      lib.atan2 (dy robot) (dx robot) - robot.pos_t = 0 → robot.hits = [] →
        (callback lib done robot).2 = [Call.set_vel 10.0, Call.set_turn 0] ∧
        (control lib robot (scanHits robot.hits)).state = 0 := by
    intro K _ lib done robot hg hth hh
    have hth' : theta lib robot = 0 := hth
    have hc : control lib robot (scanHits robot.hits) = ⟨10.0, 0, 0⟩ := by
      rw [hh, scanHits_nil, control_seek _ _ _ rfl rfl rfl, hth', neg_zero]
    refine ⟨?_, by rw [hc]⟩
    rw [callback_not_atGoal lib done robot hg, hc]
    show [Call.set_vel (10.0 : K), Call.set_turn (saturate 0)] = _
    rw [saturate_of_mem (by norm_num) (by norm_num)]
  refine ⟨?_, gen⟩
  refine gen ℝ _ false ⟨0, 0, 0, []⟩ (by rw [atGoal_iff]; norm_num [abs_lt]) ?_ rfl
  simp only [dx, dy, goal_x, goal_y]
  norm_num [arg_mk_pos]

/-- Witness of C7: the pose `(10, 0, 0)` with no hits, with the real `atan2`. -/
theorem C7_no_obstacle_baseline_witness :
    (callback (⟨fun y x => Complex.arg ⟨x, y⟩, Real.sqrt⟩ : MathLib ℝ) true
        ⟨10, 0, 0, []⟩).2 = [Call.set_vel 10.0, Call.set_turn 0] :=
  (C7_no_obstacle_baseline.2 ℝ ⟨fun y x => Complex.arg ⟨x, y⟩, Real.sqrt⟩ true
    ⟨10, 0, 0, []⟩ (by rw [atGoal_iff]; norm_num [abs_lt])
    (by simp only [dx, dy, goal_x, goal_y]; norm_num [arg_mk_pos]) rfl).1

/-- C8. Transition is half of Seek: the transition branch is taken (`state = 3`,
pose outside the goal box) exactly when the pose is outside the goal box, no hit
with range `< 4.0` has `|angle| < 1.7 * turn_angle`, and some hit with range
`< 4.0` has `1.7 * turn_angle ≤ |angle| < 2.2 * turn_angle`; then the velocity is
`0.9 * 10.0` and the raw turn command is `0.5` times the raw turn command that
the seek branch computes for the same pose without hits, and the callback emits
that velocity and the clamp of that turn command. -/
theorem C8_transition_half_seek (lib : MathLib F) (done : Bool) (robot : Robot F) :
    ((¬ atGoal robot ∧ (control lib robot (scanHits robot.hits)).state = 3) ↔
      (¬ atGoal robot ∧
        (∀ h ∈ robot.hits, h.range < 4.0 → ¬ |h.angle| < 1.7 * turn_angle) ∧
        ∃ h ∈ robot.hits, h.range < 4.0 ∧
          1.7 * turn_angle ≤ |h.angle| ∧ |h.angle| < 2.2 * turn_angle)) ∧
    (¬ atGoal robot → (control lib robot (scanHits robot.hits)).state = 3 →
      (control lib { robot with hits := [] } (scanHits [])).state = 0 ∧
      (control lib robot (scanHits robot.hits)).vel_cmd = 0.9 * 10.0 ∧
      (control lib robot (scanHits robot.hits)).turn_cmd =
        0.5 * (control lib { robot with hits := [] } (scanHits [])).turn_cmd ∧
      (callback lib done robot).2 =
        [Call.set_vel (0.9 * 10.0),
         Call.set_turn (saturate
           (0.5 * (control lib { robot with hits := [] } (scanHits [])).turn_cmd))]) := by
  obtain ⟨f₁, f₂, f₃⟩ := scanHits_flags robot.hits
  have key : (control lib robot (scanHits robot.hits)).state = 3 ↔
      ((∀ h ∈ robot.hits, h.range < 4.0 → ¬ |h.angle| < 1.7 * turn_angle) ∧
        ∃ h ∈ robot.hits, h.range < 4.0 ∧
          1.7 * turn_angle ≤ |h.angle| ∧ |h.angle| < 2.2 * turn_angle) := by
    rw [control_state_three, ← no_avoid_no_hold_iff, ← f₁, ← f₂, Bool.not_eq_true,
      Bool.not_eq_true, and_assoc]
    exact and_congr Iff.rfl (and_congr Iff.rfl f₃)
  refine ⟨and_congr Iff.rfl key, fun hg hs => ?_⟩
  obtain ⟨h₁, h₂, h₃⟩ := (control_state_three lib robot _).1 hs
  have hc := control_transition lib robot _ h₁ h₂ h₃
  have hseek : control lib { robot with hits := [] } (scanHits []) =
      ⟨10.0, -theta lib robot, 0⟩ := by
    rw [scanHits_nil, control_seek _ _ _ rfl rfl rfl]; rfl
  have hturn : (-0.5 : F) * theta lib robot = 0.5 * -theta lib robot := by ring
  refine ⟨by rw [hseek], by rw [hc], by rw [hc, hseek]; exact hturn, ?_⟩
  rw [callback_not_atGoal lib done robot hg, hc, hseek]
  show [Call.set_vel _, Call.set_turn (saturate (-0.5 * theta lib robot))] = _
  rw [hturn]

/-- Witness of C8: the pose `(0, 0, 0)` with one hit at range `2` and angle `1`. -/
theorem C8_transition_half_seek_witness :
    (control (⟨fun _ _ => 0, Rat.sqrt⟩ : MathLib ℚ) ⟨0, 0, 0, [⟨2, 1⟩]⟩
        (scanHits [⟨2, 1⟩])).state = 3 ∧
    (callback (⟨fun _ _ => 0, Rat.sqrt⟩ : MathLib ℚ) false ⟨0, 0, 0, [⟨2, 1⟩]⟩).2 =
      [Call.set_vel (0.9 * 10.0),
       Call.set_turn (saturate (0.5 *
         (control (⟨fun _ _ => 0, Rat.sqrt⟩ : MathLib ℚ) ⟨0, 0, 0, []⟩
           (scanHits [])).turn_cmd))] :=
  have hg : ¬ atGoal (⟨0, 0, 0, [⟨2, 1⟩]⟩ : Robot ℚ) := by
    rw [atGoal_iff]; norm_num [abs_lt]
  have hs := ((C8_transition_half_seek (⟨fun _ _ => 0, Rat.sqrt⟩ : MathLib ℚ) false
    ⟨0, 0, 0, [⟨2, 1⟩]⟩).1.2
      ⟨hg, by simp [turn_angle_eq]; norm_num,
        ⟨2, 1⟩, by simp, by norm_num, by rw [turn_angle_eq]; norm_num,
        by rw [turn_angle_eq]; norm_num⟩).2
  ⟨hs, ((C8_transition_half_seek (⟨fun _ _ => 0, Rat.sqrt⟩ : MathLib ℚ) false
    ⟨0, 0, 0, [⟨2, 1⟩]⟩).2 hg hs).2.2.2⟩

/-- C9, as stated, fails on a pose with a NaN component: the pose with a NaN
`pos_x` is outside the goal box and the distance computed is NaN, since
`std::max(NaN, 1.0)` is NaN; it is neither greater than `1.0` nor equal to it. -/
theorem C9_counterexample :
    ¬ atGoalD (⟨Dbl.nan, Dbl.num 0, Dbl.num 0, []⟩ : RobotD ℝ) ∧
    distD (⟨fun y x => Complex.arg ⟨x, y⟩, Real.sqrt⟩ : MathLib ℝ)
      ⟨Dbl.nan, Dbl.num 0, Dbl.num 0, []⟩ = Dbl.nan ∧
    ¬ (Dbl.num 1.0 < distD (⟨fun y x => Complex.arg ⟨x, y⟩, Real.sqrt⟩ : MathLib ℝ)
      ⟨Dbl.nan, Dbl.num 0, Dbl.num 0, []⟩) ∧
    distD (⟨fun y x => Complex.arg ⟨x, y⟩, Real.sqrt⟩ : MathLib ℝ)
      ⟨Dbl.nan, Dbl.num 0, Dbl.num 0, []⟩ ≠ Dbl.num 1.0 := by
  have hd : distD (⟨fun y x => Complex.arg ⟨x, y⟩, Real.sqrt⟩ : MathLib ℝ)
      ⟨Dbl.nan, Dbl.num 0, Dbl.num 0, []⟩ = Dbl.nan := by
    unfold distD
    show fmax (sqrtD _ (powD Dbl.nan 2 + powD (dyD _) 2)) (Dbl.num 1.0) = Dbl.nan
    rw [powD_two_nan, Dbl.nan_add]
    exact fmax_nan _
  refine ⟨fun h => Dbl.not_nan_lt _ h.1, hd, ?_, ?_⟩
  · rw [hd]; exact Dbl.not_lt_nan _
  · rw [hd]; exact fun h => Dbl.noConfusion h

/-- C9 (amended). Distance floor: for every pose whose `pos_x` and `pos_y` are
numbers (not NaN), whatever the heading and the hits, the distance computed by
the callback is the number `max(sqrt(dx^2 + dy^2), 1.0)`, hence `≥ 1.0`; it is
the value passed to `pow` in the turn command of the seek and of the transition
branch, whatever function `pow` is; so when `sqrt(dx^2 + dy^2) < 1.0` the
distance is exactly `1.0` and `1.0` is the value passed to `pow` in both
branches. -/
theorem C9_distance_floor (powf : F → ℤ → F) (lib : MathLib F) (robot : Robot F) (r : F)
    (headingD : Dbl F) (hitsD : List (LaserHitD F)) :
    distD lib ⟨Dbl.num robot.pos_x, Dbl.num robot.pos_y, headingD, hitsD⟩ =
      Dbl.num (dist lib robot) ∧
    dist lib robot = max (lib.sqrt ((20 - robot.pos_x) ^ 2 + (0 - robot.pos_y) ^ 2)) 1.0 ∧
    1.0 ≤ dist lib robot ∧
    (∀ s : Detect F, control lib robot s = controlP pow lib robot s) ∧
    (controlP powf lib robot ⟨r, false, false, false⟩).turn_cmd =
      -theta lib robot *
        powf (max (lib.sqrt ((20 - robot.pos_x) ^ 2 + (0 - robot.pos_y) ^ 2)) 1.0)
          (Int.tdiv (-1) 2) ∧
    (controlP powf lib robot ⟨r, false, false, true⟩).turn_cmd =
      -0.5 * theta lib robot *
        powf (max (lib.sqrt ((20 - robot.pos_x) ^ 2 + (0 - robot.pos_y) ^ 2)) 1.0)
          (Int.tdiv (-1) 2) ∧
    (lib.sqrt ((20 - robot.pos_x) ^ 2 + (0 - robot.pos_y) ^ 2) < 1.0 →
      dist lib robot = 1.0 ∧
      (controlP powf lib robot ⟨r, false, false, false⟩).turn_cmd =
        -theta lib robot * powf 1.0 (Int.tdiv (-1) 2) ∧
      (controlP powf lib robot ⟨r, false, false, true⟩).turn_cmd =
        -0.5 * theta lib robot * powf 1.0 (Int.tdiv (-1) 2)) := by
  have hd : dist lib robot =
      max (lib.sqrt ((20 - robot.pos_x) ^ 2 + (0 - robot.pos_y) ^ 2)) 1.0 := by
    simp only [dist, dx, dy, goal_x, goal_y, pow]
    norm_num [zpow_ofNat]
  have h₁ : (controlP powf lib robot ⟨r, false, false, false⟩).turn_cmd =
      -theta lib robot * powf (dist lib robot) (Int.tdiv (-1) 2) := rfl
  have h₂ : (controlP powf lib robot ⟨r, false, false, true⟩).turn_cmd =
      -0.5 * theta lib robot * powf (dist lib robot) (Int.tdiv (-1) 2) := rfl
  refine ⟨distD_num lib robot.pos_x robot.pos_y robot.pos_t headingD hitsD robot.hits, hd, ?_,
    fun _ => rfl, by rw [h₁, hd], by rw [h₂, hd], fun h => ?_⟩
  · rw [hd]; exact le_max_right _ _
  · have h1 : dist lib robot = 1.0 := by rw [hd]; exact max_eq_right h.le
    exact ⟨h1, by rw [h₁, h1], by rw [h₂, h1]⟩

/-- Witness of C9 (amended): the pose `(19.2, 0, 0)`, with `dx = 0.8` outside the
goal box and at true distance `0.8 < 1` from the goal; the distance computed is
`1.0`, and with the first projection in the place of `pow` the seek turn command
is `-theta * 1.0`. -/
theorem C9_distance_floor_witness :
    ¬ atGoal (⟨19.2, 0, 0, []⟩ : Robot ℝ) ∧
    Real.sqrt ((20 - 19.2) ^ 2 + (0 - 0) ^ 2) = 0.8 ∧
    dist (⟨fun y x => Complex.arg ⟨x, y⟩, Real.sqrt⟩ : MathLib ℝ) ⟨19.2, 0, 0, []⟩ = 1.0 ∧
    (controlP (fun x _ => x) (⟨fun y x => Complex.arg ⟨x, y⟩, Real.sqrt⟩ : MathLib ℝ)
        ⟨19.2, 0, 0, []⟩ ⟨1.0, false, false, false⟩).turn_cmd =
      -theta (⟨fun y x => Complex.arg ⟨x, y⟩, Real.sqrt⟩ : MathLib ℝ) ⟨19.2, 0, 0, []⟩ *
        1.0 := by
  have hs : Real.sqrt ((20 - 19.2) ^ 2 + (0 - 0) ^ 2) = 0.8 := by
    rw [show ((20 - 19.2 : ℝ)) ^ 2 + (0 - 0) ^ 2 = 0.8 ^ 2 by norm_num]
    exact Real.sqrt_sq (by norm_num)
  have h := (C9_distance_floor (fun x _ => x)
    (⟨fun y x => Complex.arg ⟨x, y⟩, Real.sqrt⟩ : MathLib ℝ) ⟨19.2, 0, 0, []⟩ 1.0
      Dbl.nan []).2.2.2.2.2.2
      (by
        show Real.sqrt ((20 - 19.2) ^ 2 + (0 - 0) ^ 2) < 1.0
        rw [hs]; norm_num)
  exact ⟨by rw [atGoal_iff]; norm_num [abs_lt], hs, h.1, h.2.1⟩

/-- C10. Memoryless determinism: the calls made by the callback do not depend on
the value of the global `done`, which the callback leaves unchanged; in a run of
any sequence of ticks from any initial value of `done`, the calls of each tick
are those of the callback on that tick's pose and hits alone, so two ticks with
equal pose and hits emit equal calls whatever ran before or in between; and a
pose inside the goal box emits `set_vel(0)`, `set_turn(0)`, `done()` at every
one of any number of repeated ticks. -/
theorem C10_memoryless (lib : MathLib F) (d d' : Bool) (robot : Robot F) :
    (callback lib d robot).2 = (callback lib d' robot).2 ∧
    (callback lib d robot).1 = d ∧
    (∀ ticks : List (Robot F),
      (run lib d ticks).2 = ticks.map fun r => (callback lib d' r).2) ∧
    (∀ before between after : List (Robot F),
      (run lib d (before ++ robot :: between ++ robot :: after)).2 =
        (run lib d' before).2 ++ (callback lib d' robot).2 :: (run lib d' between).2 ++
          (callback lib d' robot).2 :: (run lib d' after).2) ∧
    (atGoal robot → ∀ n : ℕ,
      (run lib d (List.replicate n robot)).2 =
        List.replicate n [Call.set_vel 0, Call.set_turn 0, Call.done]) := by
  refine ⟨callback_snd_done lib d d' robot, callback_fst lib d robot, ?_, ?_, ?_⟩
  · intro ticks; rw [run_eq_map lib d d']
  · intro before between after
    rw [run_eq_map lib d d', run_eq_map lib d' d', run_eq_map lib d' d',
      run_eq_map lib d' d']
    simp
  · intro hg n
    rw [run_eq_map lib d d', List.map_replicate, callback_atGoal lib d' robot hg]

/-- Witness of C10: three ticks at the pose `(20, 0, 0)`, inside the goal box. -/
theorem C10_memoryless_witness :
    (run (⟨fun _ _ => 0, Rat.sqrt⟩ : MathLib ℚ) true
        (List.replicate 3 ⟨20, 0, 0, [⟨1, 0⟩]⟩)).2 =
      List.replicate 3 [Call.set_vel 0, Call.set_turn 0, Call.done] :=
  (C10_memoryless (⟨fun _ _ => 0, Rat.sqrt⟩ : MathLib ℚ) true false
    ⟨20, 0, 0, [⟨1, 0⟩]⟩).2.2.2.2 (by rw [atGoal_iff]; norm_num [abs_lt]) 3

/-- C11. Avoid command with last-match-wins range: for every pose outside the
goal box and every hit list whose last hit with range `< 4.0` and
`|angle| < turn_angle` is `h` (every list with such a hit has a last one), the
callback emits velocity `0.8 * 10.0` and turn `turn_angle / max(h.range, 1.0)`
if `pos_y < -0.1`, minus that otherwise; and there are two hit lists that are
permutations of each other and yield different turn commands. -/
theorem C11_avoid_last_match (lib : MathLib F) (done : Bool) (robot : Robot F)
    (hg : ¬ atGoal robot) :
    (∀ (pre post : List (LaserHit F)) (h : LaserHit F),
      robot.hits = pre ++ h :: post →
      (h.range < 4.0 ∧ |h.angle| < turn_angle) →
      (∀ h' ∈ post, ¬ (h'.range < 4.0 ∧ |h'.angle| < turn_angle)) →
      (callback lib done robot).2 =
        [Call.set_vel (0.8 * 10.0),
         Call.set_turn (if robot.pos_y < -0.1 then turn_angle / max h.range 1.0
                        else -(turn_angle / max h.range 1.0))]) ∧
    ((∃ h ∈ robot.hits, h.range < 4.0 ∧ |h.angle| < turn_angle) →
      ∃ (pre : List (LaserHit F)) (h : LaserHit F) (post : List (LaserHit F)),
        robot.hits = pre ++ h :: post ∧ (h.range < 4.0 ∧ |h.angle| < turn_angle) ∧
        ∀ h' ∈ post, ¬ (h'.range < 4.0 ∧ |h'.angle| < turn_angle)) ∧
    (∃ hits₁ hits₂ : List (LaserHit F), hits₁.Perm hits₂ ∧
      (callback lib done { robot with hits := hits₁ }).2 ≠
        (callback lib done { robot with hits := hits₂ }).2) := by
  have main : ∀ (hits pre post : List (LaserHit F)) (h : LaserHit F),
      hits = pre ++ h :: post → avoidHit h → (∀ h' ∈ post, ¬ avoidHit h') →
      (callback lib done { robot with hits := hits }).2 =
        [Call.set_vel (0.8 * 10.0),
         Call.set_turn (if robot.pos_y < -0.1 then turn_angle / max h.range 1.0
                        else -(turn_angle / max h.range 1.0))] := by
    intro hits pre post h e hh hn
    have hg' : ¬ atGoal { robot with hits := hits } := hg
    have ht : (scanHits hits).turn = true :=
      (foldl_turn _ _).2 (Or.inr ⟨h, by rw [e]; simp, hh⟩)
    have hr : (scanHits hits).hit_range = h.range := by
      unfold scanHits; rw [e]; exact foldl_hit_range_last pre post h _ hh hn
    rw [callback_not_atGoal lib done _ hg']
    show [Call.set_vel (control lib { robot with hits := hits } (scanHits hits)).vel_cmd,
      Call.set_turn (saturate
        (control lib { robot with hits := hits } (scanHits hits)).turn_cmd)] = _
    rw [control_avoid lib _ _ ht, hr]
    show [Call.set_vel (0.8 * 10.0 : F),
      Call.set_turn (saturate (if robot.pos_y < -0.1 then turn_angle / max h.range 1.0
        else -(turn_angle / max h.range 1.0)))] = _
    by_cases hy : robot.pos_y < -0.1
    · simp only [if_pos hy, (saturate_avoid h.range).1]
    · simp only [if_neg hy, (saturate_avoid h.range).2]
  refine ⟨fun pre post h e hh hn => main robot.hits pre post h e hh hn,
    exists_last_avoidHit robot.hits, ?_⟩
  have hta : (turn_angle : F) = 3141/6000 := turn_angle_eq
  have q2 : avoidHit (⟨2, 0⟩ : LaserHit F) := ⟨by norm_num, by rw [hta]; norm_num⟩
  have q3 : avoidHit (⟨3, 0⟩ : LaserHit F) := ⟨by norm_num, by rw [hta]; norm_num⟩
  refine ⟨[⟨2, 0⟩, ⟨3, 0⟩], [⟨3, 0⟩, ⟨2, 0⟩], List.Perm.swap _ _ _, ?_⟩
  rw [main [⟨2, 0⟩, ⟨3, 0⟩] [⟨2, 0⟩] [] ⟨3, 0⟩ rfl q3 (by simp),
    main [⟨3, 0⟩, ⟨2, 0⟩] [⟨3, 0⟩] [] ⟨2, 0⟩ rfl q2 (by simp)]
  have m3 : max (3 : F) 1.0 = 3 := max_eq_left (by norm_num)
  have m2 : max (2 : F) 1.0 = 2 := max_eq_left (by norm_num)
  intro he
  have ht := (Call.set_turn.inj (List.cons.inj (List.cons.inj he).2).1)
  rw [m3, m2, hta] at ht
  by_cases hy : robot.pos_y < -0.1
  · rw [if_pos hy, if_pos hy] at ht; norm_num at ht
  · rw [if_neg hy, if_neg hy] at ht; norm_num at ht

/-- Witness of C11: pose `(0, 0, 0)` with two hits straight ahead, at range `1.5`
and then at range `3`; the turn is computed from the range `3` of the last one,
not from the smaller range `1.5`. -/
theorem C11_avoid_last_match_witness :
    (callback (⟨fun _ _ => 0, Rat.sqrt⟩ : MathLib ℚ) false
        ⟨0, 0, 0, [⟨1.5, 0⟩, ⟨3, 0⟩, ⟨5, 0⟩]⟩).2 =
      [Call.set_vel (0.8 * 10.0), Call.set_turn (-(turn_angle / 3))] := by
  have h := (C11_avoid_last_match (⟨fun _ _ => 0, Rat.sqrt⟩ : MathLib ℚ) false
    ⟨0, 0, 0, [⟨1.5, 0⟩, ⟨3, 0⟩, ⟨5, 0⟩]⟩ (by rw [atGoal_iff]; norm_num [abs_lt])).1
      [⟨1.5, 0⟩] [⟨5, 0⟩] ⟨3, 0⟩ rfl
      ⟨by norm_num, by rw [turn_angle_eq]; norm_num⟩
      (by simp; norm_num)
  rw [h]
  norm_num

/-- C12. HoldCourse: for every pose outside the goal box and every hit list in
which no hit with range `< 4.0` has `|angle| < turn_angle` and some hit with
range `< 4.0` has `turn_angle ≤ |angle| < 1.7 * turn_angle`, the hold branch is
taken (`state = 2`) and the callback emits velocity `0.8 * 10.0` and turn `0`,
whatever the bearing error, the distance to the goal and the other hits. -/
theorem C12_hold_course (lib : MathLib F) (done : Bool) (robot : Robot F)
    (hg : ¬ atGoal robot)
    (hn : ∀ h ∈ robot.hits, h.range < 4.0 → ¬ |h.angle| < turn_angle)
    (hq : ∃ h ∈ robot.hits, h.range < 4.0 ∧
      turn_angle ≤ |h.angle| ∧ |h.angle| < 1.7 * turn_angle) :
    (control lib robot (scanHits robot.hits)).state = 2 ∧
    (callback lib done robot).2 = [Call.set_vel (0.8 * 10.0), Call.set_turn 0] := by
  obtain ⟨f₁, f₂, -⟩ := scanHits_flags robot.hits
  have h₁ : (scanHits robot.hits).turn = false := by
    rw [← Bool.not_eq_true, f₁]
    rintro ⟨h, hm, hr, ha⟩
    exact hn h hm hr ha
  have h₂ : (scanHits robot.hits).stay_on_course = true := f₂.2 hq
  have hc := control_hold lib robot _ h₁ h₂
  refine ⟨by rw [hc], ?_⟩
  rw [callback_not_atGoal lib done robot hg, hc]
  show [Call.set_vel (0.8 * 10.0 : F), Call.set_turn (saturate 0)] = _
  rw [saturate_of_mem (by norm_num) (by norm_num)]

/-- Witness of C12: pose `(0, 0)` with heading `1`, a hit at angle `0.7` and range
`2` in the hold band and a hit at angle `1` and range `2` in the transition band. -/
theorem C12_hold_course_witness :
    (callback (⟨fun _ _ => 0, Rat.sqrt⟩ : MathLib ℚ) false
        ⟨0, 0, 1, [⟨2, 1⟩, ⟨2, 0.7⟩]⟩).2 = [Call.set_vel (0.8 * 10.0), Call.set_turn 0] :=
  (C12_hold_course (⟨fun _ _ => 0, Rat.sqrt⟩ : MathLib ℚ) false ⟨0, 0, 1, [⟨2, 1⟩, ⟨2, 0.7⟩]⟩
    (by rw [atGoal_iff]; norm_num [abs_lt])
    (by
      intro h hm _ ha
      rw [turn_angle_eq] at ha
      have ha' := (abs_lt.1 ha).2
      simp only [List.mem_cons, List.mem_singleton, List.not_mem_nil, or_false] at hm
      rcases hm with rfl | rfl <;> norm_num at ha')
    ⟨⟨2, 0.7⟩, by simp, by norm_num,
      by rw [turn_angle_eq]; exact le_trans (by norm_num) (le_abs_self _),
      by rw [turn_angle_eq]; norm_num [abs_lt]⟩).2

/-- C13. Range gate: for every pose and every hit list, the result of the
callback is its result on the list without the hits of range `≥ 4.0`, and also
its result on the list without the hits of `|angle| ≥ 2.2 * turn_angle`; a hit
at range exactly `4.0` leaves the locals of the loop unchanged. -/
theorem C13_range_gate (lib : MathLib F) (done : Bool) (robot : Robot F) :
    callback lib done
        { robot with hits := robot.hits.filter fun h => decide (h.range < 4.0) } =
      callback lib done robot ∧
    callback lib done
        { robot with hits := robot.hits.filter fun h => decide (|h.angle| < 2.2 * turn_angle) } =
      callback lib done robot ∧
    ∀ (s : Detect F) (angle : F), scanHit s ⟨4.0, angle⟩ = s := by
  refine ⟨?_, ?_, fun s angle => scanHit_out_of_range s _ (lt_irrefl _)⟩
  · refine callback_congr_hits lib done robot _ ?_
    unfold scanHits
    exact foldl_filter_skip _ _ _
      (fun s h hp => scanHit_out_of_range s h (by simpa using hp))
  · refine callback_congr_hits lib done robot _ ?_
    unfold scanHits
    exact foldl_filter_skip _ _ _
      (fun s h hp => scanHit_out_of_angle s h (by simpa using hp))

/-- C14. Goal-reached only inside the tolerance box: for every pose with
`|goal.x - pose.x| ≥ 0.75` or `|goal.y - pose.y| ≥ 0.75` and every hit list, the
callback does not call `done()`; its calls are `set_vel(v)`, `set_turn(t)` with
`v > 0`, and the locals of exactly one of the four branches avoid (`state = 1`),
hold (`state = 2`), transition (`state = 3`), seek (`state = 0`) are the ones
emitted, `t` being the clamp of that branch's turn command. -/
theorem C14_goal_only_in_box (lib : MathLib F) (done : Bool) (robot : Robot F)
    (hg : 0.75 ≤ |20 - robot.pos_x| ∨ 0.75 ≤ |0 - robot.pos_y|) :
    Call.done ∉ (callback lib done robot).2 ∧
    ∃ v t, (callback lib done robot).2 = [Call.set_vel v, Call.set_turn t] ∧ 0 < v ∧
      ((control lib robot (scanHits robot.hits)).state = 1 ∧ v = 0.8 * 10.0 ∧
          t = saturate (if robot.pos_y < -0.1
            then turn_angle / max (scanHits robot.hits).hit_range 1.0
            else -(turn_angle / max (scanHits robot.hits).hit_range 1.0)) ∨
        (control lib robot (scanHits robot.hits)).state = 2 ∧ v = 0.8 * 10.0 ∧
          t = saturate 0 ∨
        (control lib robot (scanHits robot.hits)).state = 3 ∧ v = 0.9 * 10.0 ∧
          t = saturate (-0.5 * theta lib robot) ∨
        (control lib robot (scanHits robot.hits)).state = 0 ∧ v = 10.0 ∧
          t = saturate (-theta lib robot)) := by
  have hg' : ¬ atGoal robot := (not_atGoal_iff robot).2 hg
  rw [callback_not_atGoal lib done robot hg']
  refine ⟨by simp, _, _, rfl, ?_⟩
  rcases control_cases lib robot (scanHits robot.hits) with
    ⟨-, hc⟩ | ⟨-, -, hc⟩ | ⟨-, -, -, hc⟩ | ⟨-, -, -, hc⟩
  · rw [hc]; exact ⟨by norm_num, Or.inl ⟨rfl, rfl, rfl⟩⟩
  · rw [hc]; exact ⟨by norm_num, Or.inr (Or.inl ⟨rfl, rfl, rfl⟩)⟩
  · rw [hc]; exact ⟨by norm_num, Or.inr (Or.inr (Or.inl ⟨rfl, rfl, rfl⟩))⟩
  · rw [hc]; exact ⟨by norm_num, Or.inr (Or.inr (Or.inr ⟨rfl, rfl, rfl⟩))⟩

/-- Witness of C14: the poses with `(dx, dy) = (0.8, 0)` and `(dx, dy) = (0, 0.9)`,
both with no hits, do not call `done()`. -/
theorem C14_goal_only_in_box_witness :
    Call.done ∉ (callback (⟨fun y x => Complex.arg ⟨x, y⟩, Real.sqrt⟩ : MathLib ℝ) false
        ⟨19.2, 0, 0, []⟩).2 ∧
    Call.done ∉ (callback (⟨fun y x => Complex.arg ⟨x, y⟩, Real.sqrt⟩ : MathLib ℝ) false
        ⟨20, -0.9, 0, []⟩).2 :=
  ⟨(C14_goal_only_in_box _ false ⟨19.2, 0, 0, []⟩
      (Or.inl (le_trans (by norm_num) (le_abs_self _)))).1,
    (C14_goal_only_in_box _ false ⟨20, -0.9, 0, []⟩
      (Or.inr (le_trans (by norm_num) (le_abs_self _)))).1⟩

/-- C15. Velocity range: for every pose and every hit list the callback emits one
velocity `v`; either `done()` is called and `v = 0`, or `done()` is not called and
`v` is `0.8 * 10.0` (avoid, hold), `0.9 * 10.0` (transition) or `10.0` (seek); in
every case `0 ≤ v ≤ 10.0`, and `v = 0` only when `done()` is called. -/
theorem C15_velocity_range (lib : MathLib F) (done : Bool) (robot : Robot F) :
    ∃ v t,
      ((callback lib done robot).2 = [Call.set_vel v, Call.set_turn t, Call.done] ∧ v = 0 ∨
       (callback lib done robot).2 = [Call.set_vel v, Call.set_turn t] ∧
        (((control lib robot (scanHits robot.hits)).state = 1 ∨
            (control lib robot (scanHits robot.hits)).state = 2) ∧ v = 0.8 * 10.0 ∨
          (control lib robot (scanHits robot.hits)).state = 3 ∧ v = 0.9 * 10.0 ∨
          (control lib robot (scanHits robot.hits)).state = 0 ∧ v = 10.0)) ∧
      0 ≤ v ∧ v ≤ 10.0 ∧ (v = 0 → Call.done ∈ (callback lib done robot).2) := by
  by_cases hg : atGoal robot
  · rw [callback_atGoal lib done robot hg]
    exact ⟨0, 0, Or.inl ⟨rfl, rfl⟩, le_refl _, by norm_num, fun _ => by simp⟩
  · rw [callback_not_atGoal lib done robot hg]
    refine ⟨_, _, Or.inr ⟨rfl, ?_⟩, ?_⟩
    · rcases control_cases lib robot (scanHits robot.hits) with
        ⟨-, hc⟩ | ⟨-, -, hc⟩ | ⟨-, -, -, hc⟩ | ⟨-, -, -, hc⟩
      · rw [hc]; exact Or.inl ⟨Or.inl rfl, rfl⟩
      · rw [hc]; exact Or.inl ⟨Or.inr rfl, rfl⟩
      · rw [hc]; exact Or.inr (Or.inl ⟨rfl, rfl⟩)
      · rw [hc]; exact Or.inr (Or.inr ⟨rfl, rfl⟩)
    · rcases control_cases lib robot (scanHits robot.hits) with
        ⟨-, hc⟩ | ⟨-, -, hc⟩ | ⟨-, -, -, hc⟩ | ⟨-, -, -, hc⟩ <;>
      · rw [hc]
        refine ⟨by norm_num, by norm_num, fun h => ?_⟩
        norm_num at h

/-- C16. Bearing error is not wrapped: the bearing error is
`atan2(dy, dx) - heading` as it stands; at the pose `(40, 0)` with heading `-π/2`
and no hits it is `3π/2`, outside `(-π, π]`; there the seek branch emits the
negative turn `-50·3.14/180`, whereas the bearing error wrapped to `(-π, π]` is
`-π/2 = 3π/2 - 2π`, for which the seek law gives a positive turn. -/
theorem C16_bearing_not_wrapped :
    (∀ (lib : MathLib ℝ) (robot : Robot ℝ),
      theta lib robot = lib.atan2 (0 - robot.pos_y) (20 - robot.pos_x) - robot.pos_t) ∧
    ¬ atGoal (⟨40, 0, -(Real.pi / 2), []⟩ : Robot ℝ) ∧
    theta (⟨fun y x => Complex.arg ⟨x, y⟩, Real.sqrt⟩ : MathLib ℝ)
      ⟨40, 0, -(Real.pi / 2), []⟩ = 3 * Real.pi / 2 ∧
    Real.pi < 3 * Real.pi / 2 ∧
    (callback (⟨fun y x => Complex.arg ⟨x, y⟩, Real.sqrt⟩ : MathLib ℝ) false
        ⟨40, 0, -(Real.pi / 2), []⟩).2 =
      [Call.set_vel 10.0, Call.set_turn (-50 * 3.14 / 180)] ∧
    (-50 * 3.14 / 180 : ℝ) < 0 ∧
    (-Real.pi < -(Real.pi / 2) ∧ -(Real.pi / 2) ≤ Real.pi ∧
      3 * Real.pi / 2 = -(Real.pi / 2) + 2 * Real.pi) ∧
    (0 : ℝ) < saturate (-(-(Real.pi / 2))) := by
  have hpi := Real.pi_gt_d2
  have hpi' := Real.pi_lt_d2
  have hg : ¬ atGoal (⟨40, 0, -(Real.pi / 2), []⟩ : Robot ℝ) := by
    rw [atGoal_iff]; norm_num [abs_lt]
  have hth : theta (⟨fun y x => Complex.arg ⟨x, y⟩, Real.sqrt⟩ : MathLib ℝ)
      ⟨40, 0, -(Real.pi / 2), []⟩ = 3 * Real.pi / 2 := by
    simp only [theta, dx, dy, goal_x, goal_y]
    rw [show ((20.0 : ℝ) - 40) = -20 by norm_num, show ((0.0 : ℝ) - 0) = 0 by norm_num,
      arg_mk_neg (by norm_num)]
    ring
  refine ⟨fun lib robot => ?_, hg, hth, by linarith, ?_, by norm_num,
    ⟨by linarith, by linarith, by ring⟩, ?_⟩
  · simp only [theta, dx, dy, goal_x, goal_y]
    norm_num
  · rw [callback_not_atGoal _ _ _ hg]
    show [Call.set_vel _, Call.set_turn _] = _
    rw [scanHits_nil, control_seek _ _ _ rfl rfl rfl, hth]
    show [Call.set_vel (10.0 : ℝ), Call.set_turn (saturate (-(3 * Real.pi / 2)))] = _
    rw [saturate_of_lt (by norm_num; linarith)]
  · rw [neg_neg, saturate_of_gt (by norm_num; linarith)]
    norm_num

/-- C17. Avoid never divides by zero, never saturates and never commands zero
turn: for every pose and every hit list with a hit of range `< 4.0` and
`|angle| < turn_angle`, the divisor `max(hit_range, 1.0)` of the avoid branch
lies in `[1.0, 4.0)`, the raw turn command `c` satisfies
`turn_angle / 4 < |c| ≤ turn_angle < 50·3.14/180` with `turn_angle = 30·3.141/180`,
the clamp leaves it unchanged, it is not `0`, and outside the goal box it is the
turn command emitted. -/
theorem C17_avoid_turn_range (lib : MathLib F) (done : Bool) (robot : Robot F)
    (hq : ∃ h ∈ robot.hits, h.range < 4.0 ∧ |h.angle| < turn_angle) :
    (control lib robot (scanHits robot.hits)).state = 1 ∧
    (1.0 ≤ max (scanHits robot.hits).hit_range 1.0 ∧
      max (scanHits robot.hits).hit_range 1.0 < 4.0) ∧
    (|(control lib robot (scanHits robot.hits)).turn_cmd| =
      turn_angle / max (scanHits robot.hits).hit_range 1.0) ∧
    (turn_angle / 4 < |(control lib robot (scanHits robot.hits)).turn_cmd| ∧
      |(control lib robot (scanHits robot.hits)).turn_cmd| ≤ turn_angle) ∧
    ((turn_angle : F) = 30 * 3.141 / 180 ∧ (turn_angle : F) < 50 * 3.14 / 180) ∧
    saturate (control lib robot (scanHits robot.hits)).turn_cmd =
      (control lib robot (scanHits robot.hits)).turn_cmd ∧
    (control lib robot (scanHits robot.hits)).turn_cmd ≠ 0 ∧
    (¬ atGoal robot → (callback lib done robot).2 =
      [Call.set_vel (0.8 * 10.0),
       Call.set_turn (control lib robot (scanHits robot.hits)).turn_cmd]) := by
  have ht : (scanHits robot.hits).turn = true := (foldl_turn _ _).2 (Or.inr hq)
  have hc := control_avoid lib robot _ ht
  have hr := scanHits_hit_range_lt robot.hits
  obtain ⟨h₀, h₁, h₂⟩ := avoid_turn_bounds (scanHits robot.hits).hit_range
  have hta : (0 : F) < turn_angle := turn_angle_pos
  have hm₁ : (1.0 : F) ≤ max (scanHits robot.hits).hit_range 1.0 := le_max_right _ _
  have hm₄ : max (scanHits robot.hits).hit_range 1.0 < (4.0 : F) :=
    max_lt hr (by norm_num)
  have hm₀ : (0 : F) < max (scanHits robot.hits).hit_range 1.0 :=
    lt_of_lt_of_le (by norm_num) hm₁
  have habs : |(control lib robot (scanHits robot.hits)).turn_cmd| =
      turn_angle / max (scanHits robot.hits).hit_range 1.0 := by
    rw [hc]
    show |if robot.pos_y < -0.1 then turn_angle / max (scanHits robot.hits).hit_range 1.0
      else -(turn_angle / max (scanHits robot.hits).hit_range 1.0)| = _
    split_ifs
    · exact abs_of_pos h₀
    · rw [abs_neg]; exact abs_of_pos h₀
  have hquarter : turn_angle / 4 < turn_angle / max (scanHits robot.hits).hit_range 1.0 := by
    rw [div_lt_div_iff₀ (by norm_num) hm₀]
    have h4 : max (scanHits robot.hits).hit_range 1.0 < (4 : F) := by
      have e : (4.0 : F) = 4 := by norm_num
      rw [← e]; exact hm₄
    nlinarith
  have hsat : saturate (control lib robot (scanHits robot.hits)).turn_cmd =
      (control lib robot (scanHits robot.hits)).turn_cmd := by
    rw [hc]
    show saturate (if robot.pos_y < -0.1
      then turn_angle / max (scanHits robot.hits).hit_range 1.0
      else -(turn_angle / max (scanHits robot.hits).hit_range 1.0)) = _
    split_ifs
    · exact (saturate_avoid _).1
    · exact (saturate_avoid _).2
  refine ⟨by rw [hc], ⟨hm₁, hm₄⟩, habs, ⟨by rw [habs]; exact hquarter, by rw [habs]; exact h₁⟩,
    ⟨rfl, h₂⟩, hsat, ?_, fun hg => ?_⟩
  · intro h0
    rw [h0, abs_zero] at habs
    exact absurd habs (ne_of_lt h₀)
  · rw [callback_not_atGoal lib done robot hg, hsat, hc]

/-- Witness of C17: pose `(0, 0, 0)` with one hit straight ahead at range `0`; the
divisor is `1.0` and the turn command is `-turn_angle`. -/
theorem C17_avoid_turn_range_witness :
    (callback (⟨fun _ _ => 0, Rat.sqrt⟩ : MathLib ℚ) false ⟨0, 0, 0, [⟨0, 0⟩]⟩).2 =
      [Call.set_vel (0.8 * 10.0),
       Call.set_turn (control (⟨fun _ _ => 0, Rat.sqrt⟩ : MathLib ℚ) ⟨0, 0, 0, [⟨0, 0⟩]⟩
         (scanHits [⟨0, 0⟩])).turn_cmd] ∧
    (control (⟨fun _ _ => 0, Rat.sqrt⟩ : MathLib ℚ) ⟨0, 0, 0, [⟨0, 0⟩]⟩
      (scanHits [⟨0, 0⟩])).turn_cmd ≠ 0 :=
  have h := C17_avoid_turn_range (⟨fun _ _ => 0, Rat.sqrt⟩ : MathLib ℚ) false
    ⟨0, 0, 0, [⟨0, 0⟩]⟩
    ⟨⟨0, 0⟩, by simp, by norm_num, by rw [turn_angle_eq]; norm_num⟩
  ⟨h.2.2.2.2.2.2.2 (by rw [atGoal_iff]; norm_num [abs_lt]), h.2.2.2.2.2.2.1⟩

/-- C18, as stated, fails: the poses `(0, -1)` with heading `atan2(1, 20)` and
`(0, 0)` with heading `0` are outside the goal box, have the same bearing error
`0` and the same hit list (one hit straight ahead at range `2`), and the
callback emits the turn `turn_angle / 2` for the first and `-(turn_angle / 2)`
for the second. -/
theorem C18_counterexample :
    ¬ atGoal (⟨0, -1, Complex.arg ⟨20, 1⟩, [⟨2, 0⟩]⟩ : Robot ℝ) ∧
    ¬ atGoal (⟨0, 0, 0, [⟨2, 0⟩]⟩ : Robot ℝ) ∧
    theta (⟨fun y x => Complex.arg ⟨x, y⟩, Real.sqrt⟩ : MathLib ℝ)
      ⟨0, -1, Complex.arg ⟨20, 1⟩, [⟨2, 0⟩]⟩ = 0 ∧
    theta (⟨fun y x => Complex.arg ⟨x, y⟩, Real.sqrt⟩ : MathLib ℝ) ⟨0, 0, 0, [⟨2, 0⟩]⟩ = 0 ∧
    (callback (⟨fun y x => Complex.arg ⟨x, y⟩, Real.sqrt⟩ : MathLib ℝ) false
        ⟨0, -1, Complex.arg ⟨20, 1⟩, [⟨2, 0⟩]⟩).2 =
      [Call.set_vel (0.8 * 10.0), Call.set_turn (turn_angle / 2)] ∧
    (callback (⟨fun y x => Complex.arg ⟨x, y⟩, Real.sqrt⟩ : MathLib ℝ) false
        ⟨0, 0, 0, [⟨2, 0⟩]⟩).2 =
      [Call.set_vel (0.8 * 10.0), Call.set_turn (-(turn_angle / 2))] ∧
    (turn_angle / 2 : ℝ) ≠ -(turn_angle / 2) := by
  have hta : (turn_angle : ℝ) = 3141/6000 := turn_angle_eq
  have q : avoidHit (⟨2, 0⟩ : LaserHit ℝ) := ⟨by norm_num, by rw [hta]; norm_num⟩
  have hs : scanHits [(⟨2, 0⟩ : LaserHit ℝ)] = ⟨2, true, false, false⟩ := by
    show scanHit detect₀ ⟨2, 0⟩ = _
    rw [scanHit_avoid _ _ q]; rfl
  have m2 : max (2 : ℝ) 1.0 = 2 := max_eq_left (by norm_num)
  have g₁ : ¬ atGoal (⟨0, -1, Complex.arg ⟨20, 1⟩, [⟨2, 0⟩]⟩ : Robot ℝ) := by
    rw [atGoal_iff]; norm_num [abs_lt]
  have g₂ : ¬ atGoal (⟨0, 0, 0, [⟨2, 0⟩]⟩ : Robot ℝ) := by
    rw [atGoal_iff]; norm_num [abs_lt]
  refine ⟨g₁, g₂, ?_, ?_, ?_, ?_, ?_⟩
  · simp only [theta, dx, dy, goal_x, goal_y]
    norm_num
  · simp only [theta, dx, dy, goal_x, goal_y]
    norm_num [arg_mk_pos]
  · rw [callback_not_atGoal _ _ _ g₁]
    show [Call.set_vel _, Call.set_turn _] = _
    rw [hs, control_avoid _ _ _ rfl]
    show [Call.set_vel (0.8 * 10.0 : ℝ),
      Call.set_turn (saturate (if (-1 : ℝ) < -0.1 then turn_angle / max 2 1.0
        else -(turn_angle / max 2 1.0)))] = _
    rw [if_pos (by norm_num), (saturate_avoid (2 : ℝ)).1, m2]
  · rw [callback_not_atGoal _ _ _ g₂]
    show [Call.set_vel _, Call.set_turn _] = _
    rw [hs, control_avoid _ _ _ rfl]
    show [Call.set_vel (0.8 * 10.0 : ℝ),
      Call.set_turn (saturate (if (0 : ℝ) < -0.1 then turn_angle / max 2 1.0
        else -(turn_angle / max 2 1.0)))] = _
    rw [if_neg (by norm_num), (saturate_avoid (2 : ℝ)).2, m2]
  · rw [hta]; norm_num

/-- C18 (amended). The distance to the goal has no effect on the turn command:
`pow(dist, -1/2)` has the integer exponent `-1/2 = 0` and is `1`; for every two
poses outside the goal box with the same bearing error and the same hit list
which, when the list has a hit of range `< 4.0` and `|angle| < turn_angle`,
agree on the test `pos_y < -0.1`, the callback emits the same velocity and the
same turn; in the seek branch the turn is the clamp of `-bearingError` and in
the transition branch the clamp of `-0.5 * bearingError`. -/
theorem C18_distance_no_effect (lib : MathLib F) (d₁ d₂ : Bool) (r₁ r₂ : Robot F)
    (g₁ : ¬ atGoal r₁) (g₂ : ¬ atGoal r₂)
    (hθ : theta lib r₁ = theta lib r₂) (hh : r₁.hits = r₂.hits)
    (hy : (∃ h ∈ r₁.hits, h.range < 4.0 ∧ |h.angle| < turn_angle) →
      (r₁.pos_y < -0.1 ↔ r₂.pos_y < -0.1)) :
    (∀ x : F, pow x (Int.tdiv (-1) 2) = 1) ∧
    (callback lib d₁ r₁).2 = (callback lib d₂ r₂).2 ∧
    ((control lib r₁ (scanHits r₁.hits)).state = 0 →
      (callback lib d₁ r₁).2 =
        [Call.set_vel 10.0, Call.set_turn (saturate (-theta lib r₁))]) ∧
    ((control lib r₁ (scanHits r₁.hits)).state = 3 →
      (callback lib d₁ r₁).2 =
        [Call.set_vel (0.9 * 10.0), Call.set_turn (saturate (-0.5 * theta lib r₁))]) := by
  rw [callback_not_atGoal lib d₁ r₁ g₁, callback_not_atGoal lib d₂ r₂ g₂, ← hh]
  rcases control_cases lib r₁ (scanHits r₁.hits) with
    ⟨h₁, hc⟩ | ⟨h₁, h₂, hc⟩ | ⟨h₁, h₂, h₃, hc⟩ | ⟨h₁, h₂, h₃, hc⟩
  · have hc' := control_avoid lib r₂ _ h₁
    have hside := hy ((scanHits_flags r₁.hits).1.1 h₁)
    rw [hc, hc']
    refine ⟨pow_tdiv_exponent, ?_, fun h => ?_, fun h => ?_⟩
    · by_cases s : r₁.pos_y < -0.1
      · simp only [if_pos s, if_pos (hside.1 s)]
      · simp only [if_neg s, if_neg (fun s' => s (hside.2 s'))]
    · simp at h
    · simp at h
  · rw [hc, control_hold lib r₂ _ h₁ h₂]
    exact ⟨pow_tdiv_exponent, rfl, fun h => by simp at h,
      fun h => by simp at h⟩
  · rw [hc, control_transition lib r₂ _ h₁ h₂ h₃, hθ]
    exact ⟨pow_tdiv_exponent, rfl, fun h => by simp at h, fun _ => rfl⟩
  · rw [hc, control_seek lib r₂ _ h₁ h₂ h₃, hθ]
    exact ⟨pow_tdiv_exponent, rfl, fun _ => rfl, fun h => by simp at h⟩

/-- Witness of C18 (amended): the poses `(0, 0)` and `(10, 0)` on the axis through
the goal, both with heading `0.3` and no hits, at distances `20` and `10`. -/
theorem C18_distance_no_effect_witness :
    (callback (⟨fun y x => Complex.arg ⟨x, y⟩, Real.sqrt⟩ : MathLib ℝ) false
        ⟨0, 0, 0.3, []⟩).2 =
      (callback (⟨fun y x => Complex.arg ⟨x, y⟩, Real.sqrt⟩ : MathLib ℝ) false
        ⟨10, 0, 0.3, []⟩).2 :=
  (C18_distance_no_effect (⟨fun y x => Complex.arg ⟨x, y⟩, Real.sqrt⟩ : MathLib ℝ)
    false false ⟨0, 0, 0.3, []⟩ ⟨10, 0, 0.3, []⟩
    (by rw [atGoal_iff]; norm_num [abs_lt]) (by rw [atGoal_iff]; norm_num [abs_lt])
    (by simp only [theta, dx, dy, goal_x, goal_y]; norm_num [arg_mk_pos]) rfl
    (fun h => by simp at h)).2.1

/-- C19. Order independence of mode and velocity: for every pose and every two
hit lists that are permutations of each other, `done()` is called for both or
for neither, the same branch is taken (same `state`), the same velocity is
emitted and the two turn commands have the same sign; at the goal and whenever
the branch is not avoid (`state ≠ 1`) the whole result is the same, so only the
magnitude of the avoid turn can depend on the order of the hits. -/
theorem C19_order_independence (lib : MathLib F) (done : Bool) (robot : Robot F)
    (hits₁ hits₂ : List (LaserHit F)) (hp : hits₁.Perm hits₂) :
    (Call.done ∈ (callback lib done { robot with hits := hits₁ }).2 ↔
      Call.done ∈ (callback lib done { robot with hits := hits₂ }).2) ∧
    (control lib { robot with hits := hits₁ } (scanHits hits₁)).state =
      (control lib { robot with hits := hits₂ } (scanHits hits₂)).state ∧
    (∃ v t₁ t₂ rest,
      (callback lib done { robot with hits := hits₁ }).2 =
        Call.set_vel v :: Call.set_turn t₁ :: rest ∧
      (callback lib done { robot with hits := hits₂ }).2 =
        Call.set_vel v :: Call.set_turn t₂ :: rest ∧
      (0 < t₁ ↔ 0 < t₂) ∧ (t₁ < 0 ↔ t₂ < 0)) ∧
    ((atGoal robot ∨
        (control lib { robot with hits := hits₁ } (scanHits hits₁)).state ≠ 1) →
      callback lib done { robot with hits := hits₁ } =
        callback lib done { robot with hits := hits₂ }) := by
  obtain ⟨e₁, e₂, e₃⟩ := scanHits_flags_perm hp
  simp only [control_with_hits]
  have hstate : (control lib robot (scanHits hits₁)).state =
      (control lib robot (scanHits hits₂)).state ∧
      (control lib robot (scanHits hits₁)).vel_cmd =
        (control lib robot (scanHits hits₂)).vel_cmd ∧
      ((control lib robot (scanHits hits₁)).state ≠ 1 →
        control lib robot (scanHits hits₁) = control lib robot (scanHits hits₂)) ∧
      (0 < saturate (control lib robot (scanHits hits₁)).turn_cmd ↔
        0 < saturate (control lib robot (scanHits hits₂)).turn_cmd) ∧
      (saturate (control lib robot (scanHits hits₁)).turn_cmd < 0 ↔
        saturate (control lib robot (scanHits hits₂)).turn_cmd < 0) := by
    rcases control_cases lib robot (scanHits hits₁) with
      ⟨h₁, hc⟩ | ⟨h₁, h₂, hc⟩ | ⟨h₁, h₂, h₃, hc⟩ | ⟨h₁, h₂, h₃, hc⟩
    · rw [hc, control_avoid lib robot _ (e₁ ▸ h₁)]
      refine ⟨rfl, rfl, fun h => absurd rfl h, ?_, ?_⟩
      · by_cases s : robot.pos_y < -0.1
        · simp only [if_pos s, (saturate_avoid _).1, (avoid_turn_bounds _).1]
        · simp only [if_neg s, (saturate_avoid _).2]
          have p₁ := (avoid_turn_bounds (scanHits hits₁).hit_range).1
          have p₂ := (avoid_turn_bounds (scanHits hits₂).hit_range).1
          constructor <;> intro h <;> linarith
      · by_cases s : robot.pos_y < -0.1
        · simp only [if_pos s, (saturate_avoid _).1]
          have p₁ := (avoid_turn_bounds (scanHits hits₁).hit_range).1
          have p₂ := (avoid_turn_bounds (scanHits hits₂).hit_range).1
          constructor <;> intro h <;> linarith
        · simp only [if_neg s, (saturate_avoid _).2, neg_lt_zero, (avoid_turn_bounds _).1]
    · rw [hc, control_hold lib robot _ (e₁ ▸ h₁) (e₂ ▸ h₂)]
      exact ⟨rfl, rfl, fun _ => rfl, Iff.rfl, Iff.rfl⟩
    · rw [hc, control_transition lib robot _ (e₁ ▸ h₁) (e₂ ▸ h₂) (e₃ ▸ h₃)]
      exact ⟨rfl, rfl, fun _ => rfl, Iff.rfl, Iff.rfl⟩
    · rw [hc, control_seek lib robot _ (e₁ ▸ h₁) (e₂ ▸ h₂) (e₃ ▸ h₃)]
      exact ⟨rfl, rfl, fun _ => rfl, Iff.rfl, Iff.rfl⟩
  obtain ⟨s₁, s₂, s₃, s₄, s₅⟩ := hstate
  have g₁ : atGoal { robot with hits := hits₁ } ↔ atGoal robot := Iff.rfl
  have g₂ : atGoal { robot with hits := hits₂ } ↔ atGoal robot := Iff.rfl
  by_cases hg : atGoal robot
  · rw [callback_atGoal lib done _ (g₁.2 hg), callback_atGoal lib done _ (g₂.2 hg)]
    exact ⟨Iff.rfl, s₁, ⟨0, 0, 0, [Call.done], rfl, rfl, Iff.rfl, Iff.rfl⟩, fun _ => rfl⟩
  · rw [callback_not_atGoal lib done _ (fun g => hg (g₁.1 g)),
      callback_not_atGoal lib done _ (fun g => hg (g₂.1 g))]
    simp only [control_with_hits]
    refine ⟨by simp, s₁, ⟨_, _, _, [], rfl, by rw [s₂], s₄, s₅⟩, fun h => ?_⟩
    rcases h with h | h
    · exact absurd h hg
    · rw [s₃ h]

/-- Witness of C19: pose `(0, 0, 0)` with the hits `(2, 0)`, `(3, 0)` in the two
orders; the avoid branch is taken for both. -/
theorem C19_order_independence_witness :
    (control (⟨fun _ _ => 0, Rat.sqrt⟩ : MathLib ℚ) ⟨0, 0, 0, [⟨2, 0⟩, ⟨3, 0⟩]⟩
        (scanHits [⟨2, 0⟩, ⟨3, 0⟩])).state =
      (control (⟨fun _ _ => 0, Rat.sqrt⟩ : MathLib ℚ) ⟨0, 0, 0, [⟨3, 0⟩, ⟨2, 0⟩]⟩
        (scanHits [⟨3, 0⟩, ⟨2, 0⟩])).state :=
  (C19_order_independence (⟨fun _ _ => 0, Rat.sqrt⟩ : MathLib ℚ) false ⟨0, 0, 0, []⟩
    [⟨2, 0⟩, ⟨3, 0⟩] [⟨3, 0⟩, ⟨2, 0⟩] (List.Perm.swap _ _ _)).2.1

end Brain
